import Mathlib

/-!
# vicnake: a shallow embedding of the game core of `vicnake.c`

The C program keeps all of its state in one `GameState` struct that every
function receives by pointer.  Here each function takes the struct by value and
returns the updated struct.

Modelling conventions.

* C `int` fields (`length`, `score`, coordinates, key codes) are mathematical
  integers.  In the main development the arithmetic on them is exact:
  coordinates and `length` stay far from the 32-bit limits on every input
  considered there.  The section on the 32-bit reading of `int` gives
  `move_snake` again with results wrapped into the `int` range, as the compiled
  program wraps them, and `move_snake32_eq` shows that the two agree away from
  the limits; claim C6, which speaks of the score of every state, is settled on
  that version.
* `Snake.body` is the array `Point body[MAX_SNAKE_LENGTH]` read as a map from
  index to `Point`.  The functions below only touch indices below
  `snake.length`, so the map agrees with the array whenever
  `snake.length <= MAX_SNAKE_LENGTH`.
* `game_win` is the `WINDOW *` pointer; only its being `NULL` (here `0`) is
  ever inspected by the game core.
* `wgetch` and `rand` are the two sources of outside data.  The key code read
  by `wgetch` is a parameter of `process_input`; the successive results of
  `rand()` are a list of naturals that is consumed from the front.  A function
  whose loop needs more draws than the list holds returns `none`: this is how
  the unbounded `do ... while` of `place_random_food` is represented.
-/

namespace Vicnake

/-! ## Constants -/

/-- Width of the playable area (`#define GAME_AREA_WIDTH 60`). -/
def GAME_AREA_WIDTH : Int := 60

/-- Height of the playable area (`#define GAME_AREA_HEIGHT 30`). -/
def GAME_AREA_HEIGHT : Int := 30

/-- Capacity of the body array (`GAME_AREA_WIDTH * GAME_AREA_HEIGHT`). -/
def MAX_SNAKE_LENGTH : Int := GAME_AREA_WIDTH * GAME_AREA_HEIGHT

/-- Length of the snake at start (`#define INITIAL_SNAKE_LENGTH 3`). -/
def INITIAL_SNAKE_LENGTH : Int := 3

/-- The ncurses code `KEY_DOWN` (octal 0402). -/
def KEY_DOWN : Int := 258

/-- The ncurses code `KEY_UP` (octal 0403). -/
def KEY_UP : Int := 259

/-- The ncurses code `KEY_LEFT` (octal 0404). -/
def KEY_LEFT : Int := 260

/-- The ncurses code `KEY_RIGHT` (octal 0405). -/
def KEY_RIGHT : Int := 261

/-- The ncurses code `ERR`, returned by `wgetch` when no key is waiting. -/
def ERR : Int := -1

/-! ## Data structures -/

/-- A 2D point: row `y`, column `x`. -/
structure Point where
  y : Int
  x : Int
deriving DecidableEq

/-- The possible directions of the snake. -/
inductive Direction where
  | DIR_UP
  | DIR_DOWN
  | DIR_LEFT
  | DIR_RIGHT
  | DIR_NONE
deriving DecidableEq

open Direction

/-- The snake: body array, length and the two direction fields. -/
structure Snake where
  body : Nat → Point
  length : Int
  current_dir : Direction
  last_input_dir : Direction

/-- The food item. -/
structure Food where
  pos : Point
  active : Bool
  symbol : Char

/-- The overall state of the game. -/
structure GameState where
  snake : Snake
  food : Food
  score : Int
  game_over : Bool
  quit_game : Bool
  term_rows : Int
  term_cols : Int
  game_win_start_y : Int
  game_win_start_x : Int
  game_win : Nat
  has_color_support : Bool

/-! ## init_game_state -/

/-- The loop `for (i = 0; i < length; ++i) body[i] = (start_y, start_x - i)` of
`init_game_state`, run for `n` more iterations from index `i`. -/
def init_body (start_y start_x : Int) (body : Nat → Point) : Nat → Nat → (Nat → Point)
  | 0, _ => body
  | n + 1, i =>
    init_body start_y start_x (Function.update body i ⟨start_y, start_x - (i : Int)⟩) n (i + 1)

/-- The function `init_game_state`: it overwrites the snake, the food flag and
symbol, the score and both end flags, and leaves everything else (the food
position, the window fields, the body cells from index 3 on) as it finds it. -/
def init_game_state (state : GameState) : GameState :=
  let length := INITIAL_SNAKE_LENGTH
  let start_y_rel := GAME_AREA_HEIGHT / 2
  let start_x_rel := GAME_AREA_WIDTH / 4
  { state with
    snake :=
      { body := init_body start_y_rel start_x_rel state.snake.body length.toNat 0
        length := length
        current_dir := DIR_RIGHT
        last_input_dir := DIR_RIGHT }
    food := { state.food with active := false, symbol := '*' }
    score := 0
    game_over := false
    quit_game := false }

/-! ## place_random_food -/

/-- The inner `for` loop of `place_random_food`: does `p` equal one of the `n`
cells `body[i], ..., body[i+n-1]`?  The loop stops at the first hit. -/
def placed_on_snake (body : Nat → Point) (p : Point) : Nat → Nat → Bool
  | 0, _ => false
  | n + 1, i =>
    if p.y = (body i).y ∧ p.x = (body i).x then true
    else placed_on_snake body p n (i + 1)

/-- The `do ... while (placed_on_snake)` loop of `place_random_food`: each round
takes two draws, row first, writes the candidate into `food.pos` and repeats
while the candidate lies on one of `body[0 .. length-1]`. -/
def place_loop (state : GameState) : List Nat → Option (GameState × List Nat)
  | ry :: rx :: rest =>
    let pos : Point :=
      ⟨((ry : Int) % GAME_AREA_HEIGHT), ((rx : Int) % GAME_AREA_WIDTH)⟩
    let st : GameState := { state with food := { state.food with pos := pos } }
    if placed_on_snake st.snake.body pos st.snake.length.toNat 0 then place_loop st rest
    else some (st, rest)
  | _ => none

/-- The function `place_random_food`: nothing happens without a window;
otherwise the loop runs and the food is switched on. -/
def place_random_food (state : GameState) (draws : List Nat) :
    Option (GameState × List Nat) :=
  if state.game_win = 0 then some (state, draws)
  else
    (place_loop state draws).map fun r =>
      ({ r.1 with food := { r.1.food with active := true } }, r.2)

/-! ## process_input -/

/-- The function `process_input`, with the key code `ch` that `wgetch` returns
as a parameter.  The letters are `'h' = 104`, `'j' = 106`, `'k' = 107`,
`'l' = 108`, `'q' = 113`, `'Q' = 81`. -/
def process_input (state : GameState) (ch : Int) : GameState :=
  if state.game_win = 0 then state
  else if ch = 104 ∨ ch = KEY_LEFT then
    if state.snake.last_input_dir ≠ DIR_RIGHT then
      { state with snake := { state.snake with current_dir := DIR_LEFT } }
    else state
  else if ch = 106 ∨ ch = KEY_DOWN then
    if state.snake.last_input_dir ≠ DIR_UP then
      { state with snake := { state.snake with current_dir := DIR_DOWN } }
    else state
  else if ch = 107 ∨ ch = KEY_UP then
    if state.snake.last_input_dir ≠ DIR_DOWN then
      { state with snake := { state.snake with current_dir := DIR_UP } }
    else state
  else if ch = 108 ∨ ch = KEY_RIGHT then
    if state.snake.last_input_dir ≠ DIR_LEFT then
      { state with snake := { state.snake with current_dir := DIR_RIGHT } }
    else state
  else if ch = 113 ∨ ch = 81 then { state with quit_game := true }
  else state

/-! ## move_snake -/

/-- The `switch` of `move_snake`: one unit step of the head; `DIR_NONE` makes the
function return. -/
def step_head (p : Point) : Direction → Option Point
  | DIR_UP => some { p with y := p.y - 1 }
  | DIR_DOWN => some { p with y := p.y + 1 }
  | DIR_LEFT => some { p with x := p.x - 1 }
  | DIR_RIGHT => some { p with x := p.x + 1 }
  | DIR_NONE => none

/-- The wall pass-through of `move_snake`: a coordinate below 0 becomes the last
index, a coordinate at or past the size becomes 0. -/
def wrap_head (p : Point) : Point :=
  let x := if p.x < 0 then GAME_AREA_WIDTH - 1 else if p.x ≥ GAME_AREA_WIDTH then 0 else p.x
  let y := if p.y < 0 then GAME_AREA_HEIGHT - 1 else if p.y ≥ GAME_AREA_HEIGHT then 0 else p.y
  ⟨y, x⟩

/-- The head that `move_snake` computes before it looks at the food: the stepped
and wrapped head, or `none` for `DIR_NONE`. -/
def new_head (state : GameState) : Option Point :=
  (step_head (state.snake.body 0) state.snake.current_dir).map wrap_head

/-- The test `food.active && new_head_pos.x == food.pos.x && new_head_pos.y ==
food.pos.y` of `move_snake`. -/
def eats_food (state : GameState) (new_head_pos : Point) : Bool :=
  state.food.active && (decide (new_head_pos.x = state.food.pos.x)
    && decide (new_head_pos.y = state.food.pos.y))

/-- The first two statements of the eating branch: `score++` and the capped
`length++`. -/
def grow (state : GameState) : GameState :=
  { state with
    score := state.score + 1
    snake :=
      { state.snake with
        length :=
          if state.snake.length < MAX_SNAKE_LENGTH then state.snake.length + 1
          else state.snake.length } }

/-- The loop `for (i = length - 1; i > 0; --i) body[i] = body[i-1]`, entered
with the counter at `i`. -/
def shift_body (body : Nat → Point) : Nat → (Nat → Point)
  | 0 => body
  | i + 1 => shift_body (Function.update body (i + 1) (body i)) i

/-- The tail of `move_snake`: shift the body, store the new head, record the
direction as the last one moved. -/
def advance (state : GameState) (new_head_pos : Point) : GameState :=
  { state with
    snake :=
      { state.snake with
        body :=
          Function.update (shift_body state.snake.body (state.snake.length - 1).toNat)
            0 new_head_pos
        last_input_dir := state.snake.current_dir } }

/-- The function `move_snake`.  It returns at once for `DIR_NONE` or a
non-positive length; otherwise it steps and wraps the head, handles the food
(which may call `place_random_food`), and then shifts the body. -/
def move_snake (state : GameState) (draws : List Nat) : Option (GameState × List Nat) :=
  if state.snake.current_dir = DIR_NONE ∧ state.snake.length > 0 then some (state, draws)
  else if state.snake.length ≤ 0 then some (state, draws)
  else
    match new_head state with
    | none => some (state, draws)
    | some new_head_pos =>
      let fed :=
        if eats_food state new_head_pos then place_random_food (grow state) draws
        else some (state, draws)
      fed.map fun r => (advance r.1 new_head_pos, r.2)

/-! ## check_self_collision and update_game_logic -/

/-- The `for` loop of `check_self_collision`: does `head` equal one of the `n`
cells `body[i], ..., body[i+n-1]`? -/
def collision_scan (body : Nat → Point) (head : Point) : Nat → Nat → Bool
  | 0, _ => false
  | n + 1, i =>
    if head.x = (body i).x ∧ head.y = (body i).y then true
    else collision_scan body head n (i + 1)

/-- The function `check_self_collision`. -/
def check_self_collision (state : GameState) : Bool :=
  if state.snake.length < 4 then false
  else
    let head := state.snake.body 0
    collision_scan state.snake.body head (state.snake.length - 1).toNat 1

/-- The function `update_game_logic`. -/
def update_game_logic (state : GameState) (draws : List Nat) :
    Option (GameState × List Nat) :=
  if state.game_over ∨ state.quit_game then some (state, draws)
  else
    (move_snake state draws).map fun r =>
      (if check_self_collision r.1 then { r.1 with game_over := true } else r.1, r.2)

/-! ## The game loop of `main` -/

/-- One round of the loop body of `main`: `process_input`, then
`update_game_logic`. -/
def tick (state : GameState) (ch : Int) (draws : List Nat) : Option (GameState × List Nat) :=
  update_game_logic (process_input state ch) draws

/-- The set-up of `main`: `init_game_state`, then `place_random_food`. -/
def start_game (state : GameState) (draws : List Nat) : Option (GameState × List Nat) :=
  place_random_food (init_game_state state) draws

/-- A run of ticks, one per key code in `keys`, all fed from one list of
draws. -/
def run_ticks (state : GameState) (draws : List Nat) : List Int → Option (GameState × List Nat)
  | [] => some (state, draws)
  | ch :: keys =>
    match tick state ch draws with
    | none => none
    | some r => run_ticks r.1 r.2 keys

/-- A whole game: set-up, then one tick per key code. -/
def play (state : GameState) (draws : List Nat) (keys : List Int) :
    Option (GameState × List Nat) :=
  match start_game state draws with
  | none => none
  | some r => run_ticks r.1 r.2 keys

/-! ## Vocabulary of the specification -/

/-- A point lies on the 60 x 30 board. -/
def in_grid (p : Point) : Prop :=
  0 ≤ p.x ∧ p.x < GAME_AREA_WIDTH ∧ 0 ≤ p.y ∧ p.y < GAME_AREA_HEIGHT

instance (p : Point) : Decidable (in_grid p) := by
  unfold in_grid
  exact inferInstance

/-- The exact opposite of a direction; `DIR_NONE` has none and maps to itself. -/
def opposite : Direction → Direction
  | DIR_UP => DIR_DOWN
  | DIR_DOWN => DIR_UP
  | DIR_LEFT => DIR_RIGHT
  | DIR_RIGHT => DIR_LEFT
  | DIR_NONE => DIR_NONE

/-- The direction a key code asks for: `h j k l` and the four arrow codes. -/
def requested_dir (ch : Int) : Option Direction :=
  if ch = 104 ∨ ch = KEY_LEFT then some DIR_LEFT
  else if ch = 106 ∨ ch = KEY_DOWN then some DIR_DOWN
  else if ch = 107 ∨ ch = KEY_UP then some DIR_UP
  else if ch = 108 ∨ ch = KEY_RIGHT then some DIR_RIGHT
  else none

/-- The move about to be made eats the food: the food is active and the stepped,
wrapped head is the food cell. -/
def will_eat (state : GameState) : Prop :=
  state.food.active = true ∧ new_head state = some state.food.pos

instance (state : GameState) : Decidable (will_eat state) := by
  unfold will_eat
  exact inferInstance

/-- The candidates that a list of draws holds: consecutive pairs, row first. -/
def candidates : List Nat → List Point
  | ry :: rx :: rest =>
    ⟨((ry : Int) % GAME_AREA_HEIGHT), ((rx : Int) % GAME_AREA_WIDTH)⟩ :: candidates rest
  | _ => []

/-- The draws let `place_random_food` return from `state`: there is no window, or
some candidate is off the cells `body[0 .. length-1]` of `state`. -/
def placement_returns (state : GameState) (draws : List Nat) : Prop :=
  state.game_win = 0 ∨
    ∃ p ∈ candidates draws,
      placed_on_snake state.snake.body p state.snake.length.toNat 0 = false

/-- The facts about the directions and the length that every call preserves. -/
def dir_inv (s : GameState) : Prop :=
  s.snake.current_dir ≠ DIR_NONE ∧ s.snake.current_dir ≠ opposite s.snake.last_input_dir ∧
    1 ≤ s.snake.length ∧ s.snake.length ≤ 1800

/-! ## Interleavings of the state-changing functions -/

/-- One call made on the game state: `process_input` with the key it reads,
`update_game_logic` or `place_random_food` with the draws it may use. -/
inductive Op where
  | input (ch : Int)
  | update (draws : List Nat)
  | place (draws : List Nat)

/-- The state after one call, when the call returns. -/
def apply_op (state : GameState) : Op → Option GameState
  | Op.input ch => some (process_input state ch)
  | Op.update draws => (update_game_logic state draws).map Prod.fst
  | Op.place draws => (place_random_food state draws).map Prod.fst

/-- The state after a sequence of calls, when all of them return. -/
def run_ops (state : GameState) : List Op → Option GameState
  | [] => some state
  | op :: ops =>
    match apply_op state op with
    | none => none
    | some next => run_ops next ops

/-! ## Example states -/

/-- A body array holding the listed points from index 0 on and `(0, 0)` in every
other slot. -/
def body_of (l : List Point) : Nat → Point :=
  fun i => l.getD i ⟨0, 0⟩

/-- A state with a window and nothing else set: no snake, no food. -/
def blank : GameState :=
  { snake :=
      { body := body_of [], length := 0, current_dir := DIR_NONE, last_input_dir := DIR_NONE }
    food := { pos := ⟨0, 0⟩, active := false, symbol := 'o' }
    score := 0
    game_over := false
    quit_game := false
    term_rows := 30
    term_cols := 60
    game_win_start_y := 0
    game_win_start_x := 0
    game_win := 1
    has_color_support := false }

/-- The scenario of the specification: snake `(5,5),(5,4),(5,3)` heading right,
active food at `(5,6)`, score 0. -/
def demo_three : GameState :=
  { blank with
    snake :=
      { body := body_of [⟨5, 5⟩, ⟨5, 4⟩, ⟨5, 3⟩]
        length := 3
        current_dir := DIR_RIGHT
        last_input_dir := DIR_RIGHT }
    food := { pos := ⟨5, 6⟩, active := true, symbol := '*' } }

/-- A snake whose head is on the right edge, row 0, heading right; no food. -/
def demo_edge : GameState :=
  { blank with
    snake :=
      { body := body_of [⟨0, 59⟩, ⟨0, 58⟩, ⟨0, 57⟩]
        length := 3
        current_dir := DIR_RIGHT
        last_input_dir := DIR_RIGHT } }

/-- A snake of four segments whose last segment lies under its head. -/
def demo_loop : GameState :=
  { blank with
    snake :=
      { body := body_of [⟨5, 5⟩, ⟨5, 6⟩, ⟨6, 6⟩, ⟨5, 5⟩]
        length := 4
        current_dir := DIR_UP
        last_input_dir := DIR_UP } }

/-- The state `demo_three` without a window (`game_win == NULL`). -/
def demo_null : GameState :=
  { demo_three with game_win := 0 }

/-- The state `demo_three` after a collision was recorded. -/
def demo_over : GameState :=
  { demo_three with game_over := true }

/-! ## Further vocabulary and example states -/

/-- The unguarded collision test of the specification: the head equals some
segment at an index from 1 up to `length - 1`, whatever the length. -/
def unguarded_collision (state : GameState) : Bool :=
  collision_scan state.snake.body (state.snake.body 0) (state.snake.length - 1).toNat 1

/-- The segments `body[0 .. length-1]` are pairwise distinct cells. -/
def pairwise_distinct (state : GameState) : Prop :=
  ∀ i j : Nat, i < j → (j : Int) < state.snake.length →
    state.snake.body i ≠ state.snake.body j

/-- The segments `body[0 .. length-1]` cover every cell of the board. -/
def covers_grid (state : GameState) : Prop :=
  ∀ p : Point, in_grid p → ∃ i : Nat, (i : Int) < state.snake.length ∧ state.snake.body i = p

/-- A body array that walks the board row by row: slot `i` holds row `i / 60`,
column `i % 60`. -/
def full_body : Nat → Point :=
  fun i => ⟨((i / 60 : Nat) : Int), ((i % 60 : Nat) : Int)⟩

/-- A snake of length 1800 lying on every cell of the board, with a window. -/
def demo_full : GameState :=
  { blank with
    snake :=
      { body := full_body
        length := 1800
        current_dir := DIR_RIGHT
        last_input_dir := DIR_RIGHT } }

/-- The state `demo_full` without a window. -/
def demo_full_null : GameState :=
  { demo_full with game_win := 0 }

/-- A state without a window in which the step to the right lands on the food at
`(5, 6)`, a cell that `body[1]` occupies as well. -/
def demo_bite_null : GameState :=
  { blank with
    snake :=
      { body := body_of [⟨5, 5⟩, ⟨5, 6⟩, ⟨6, 6⟩, ⟨6, 5⟩]
        length := 4
        current_dir := DIR_RIGHT
        last_input_dir := DIR_UP }
    food := { pos := ⟨5, 6⟩, active := true, symbol := '*' }
    game_win := 0 }

/-- A snake of five segments about to step down onto its own fourth segment. -/
def demo_coil : GameState :=
  { blank with
    snake :=
      { body := body_of [⟨5, 5⟩, ⟨5, 6⟩, ⟨6, 6⟩, ⟨6, 5⟩, ⟨7, 5⟩]
        length := 5
        current_dir := DIR_DOWN
        last_input_dir := DIR_LEFT } }

/-- The shape of a snake of length 3 that has only ever moved: its three cells
are on the board, the head is one wrapped step in `last_input_dir` from
`body[1]`, and `body[1]` is one wrapped step from `body[2]` in a direction that
`last_input_dir` does not reverse. -/
def neck_inv (s : GameState) : Prop :=
  s.snake.length = 3 →
    in_grid (s.snake.body 0) ∧ in_grid (s.snake.body 1) ∧ in_grid (s.snake.body 2) ∧
    (step_head (s.snake.body 1) s.snake.last_input_dir).map wrap_head
      = some (s.snake.body 0) ∧
    ∃ d2 : Direction, s.snake.last_input_dir ≠ opposite d2 ∧
      (step_head (s.snake.body 2) d2).map wrap_head = some (s.snake.body 1)

/-- The facts that hold in every state of a game: the direction facts, a length
of at least 3, the shape of a snake of length 3, distinct segments while the
game is not over, and the length as a function of the score. -/
def play_inv (s : GameState) : Prop :=
  dir_inv s ∧ 3 ≤ s.snake.length ∧ neck_inv s ∧
    (s.game_over = false → pairwise_distinct s) ∧
    0 ≤ s.score ∧ s.snake.length = min (3 + s.score) 1800


/-! ## The 32-bit reading of `int`

`move_snake` once more, with the arithmetic carried out in the 32-bit `int` of
the C program: a result that does not fit wraps around by `2^32`.  Only the
three coordinate steps and `score++` can leave the range; `length++` is guarded
by `length < MAX_SNAKE_LENGTH`. -/

/-- The largest value of an `int` (`INT_MAX`). -/
def INT_MAX : Int := 2147483647

/-- The smallest value of an `int` (`INT_MIN`). -/
def INT_MIN : Int := -2147483648

/-- The value an `int` holds after a computation with exact result `x`: `x`
itself when it fits, and `x` shifted by a multiple of `2^32` into the range
otherwise. -/
def int32 (x : Int) : Int :=
  (x + 2147483648) % 4294967296 - 2147483648

/-- The `switch` of `move_snake` in 32-bit arithmetic. -/
def step_head32 (p : Point) : Direction → Option Point
  | DIR_UP => some { p with y := int32 (p.y - 1) }
  | DIR_DOWN => some { p with y := int32 (p.y + 1) }
  | DIR_LEFT => some { p with x := int32 (p.x - 1) }
  | DIR_RIGHT => some { p with x := int32 (p.x + 1) }
  | DIR_NONE => none

/-- The stepped and wrapped head in 32-bit arithmetic. -/
def new_head32 (state : GameState) : Option Point :=
  (step_head32 (state.snake.body 0) state.snake.current_dir).map wrap_head

/-- The statements `score++` and the capped `length++` in 32-bit arithmetic. -/
def grow32 (state : GameState) : GameState :=
  { state with
    score := int32 (state.score + 1)
    snake :=
      { state.snake with
        length :=
          if state.snake.length < MAX_SNAKE_LENGTH then state.snake.length + 1
          else state.snake.length } }

/-- The function `move_snake` in 32-bit arithmetic. -/
def move_snake32 (state : GameState) (draws : List Nat) : Option (GameState × List Nat) :=
  if state.snake.current_dir = DIR_NONE ∧ state.snake.length > 0 then some (state, draws)
  else if state.snake.length ≤ 0 then some (state, draws)
  else
    match new_head32 state with
    | none => some (state, draws)
    | some new_head_pos =>
      let fed :=
        if eats_food state new_head_pos then place_random_food (grow32 state) draws
        else some (state, draws)
      fed.map fun r => (advance r.1 new_head_pos, r.2)

/-- The move about to be made eats the food, in 32-bit arithmetic: the food is
active and the stepped, wrapped head is the food cell. -/
def will_eat32 (state : GameState) : Prop :=
  state.food.active = true ∧ new_head32 state = some state.food.pos

instance (state : GameState) : Decidable (will_eat32 state) := by
  unfold will_eat32
  exact inferInstance

/-- The scenario `demo_three` with the score at `INT_MAX`. -/
def demo_max_score : GameState :=
  { demo_three with score := 2147483647 }

/-! ## Lemmas on the loops -/

/-- The scan of `check_self_collision` finds a hit exactly when one of the scanned
cells equals the head. -/
theorem collision_scan_iff (body : Nat → Point) (head : Point) (n i : Nat) :
    collision_scan body head n i = true ↔
      ∃ j, i ≤ j ∧ j < i + n ∧ head.x = (body j).x ∧ head.y = (body j).y := by
  induction n generalizing i with
  | zero =>
    simp only [collision_scan, Bool.false_eq_true, false_iff]
    rintro ⟨j, h1, h2, _⟩
    omega
  | succ n ih =>
    rw [collision_scan]
    by_cases h : head.x = (body i).x ∧ head.y = (body i).y
    · rw [if_pos h]
      refine ⟨fun _ => ?_, fun _ => rfl⟩
      exact ⟨i, le_refl _, by omega, h.1, h.2⟩
    · rw [if_neg h, ih]
      constructor
      · rintro ⟨j, h1, h2, h3⟩
        exact ⟨j, by omega, by omega, h3⟩
      · rintro ⟨j, h1, h2, h3⟩
        have hne : j ≠ i := by
          rintro rfl
          exact h h3
        exact ⟨j, by omega, by omega, h3⟩

/-- The scan of `place_random_food` finds a hit exactly when one of the scanned
cells equals the candidate. -/
theorem placed_on_snake_iff (body : Nat → Point) (p : Point) (n i : Nat) :
    placed_on_snake body p n i = true ↔
      ∃ j, i ≤ j ∧ j < i + n ∧ p.y = (body j).y ∧ p.x = (body j).x := by
  induction n generalizing i with
  | zero =>
    simp only [placed_on_snake, Bool.false_eq_true, false_iff]
    rintro ⟨j, h1, h2, _⟩
    omega
  | succ n ih =>
    rw [placed_on_snake]
    by_cases h : p.y = (body i).y ∧ p.x = (body i).x
    · rw [if_pos h]
      refine ⟨fun _ => ?_, fun _ => rfl⟩
      exact ⟨i, le_refl _, by omega, h.1, h.2⟩
    · rw [if_neg h, ih]
      constructor
      · rintro ⟨j, h1, h2, h3⟩
        exact ⟨j, by omega, by omega, h3⟩
      · rintro ⟨j, h1, h2, h3⟩
        have hne : j ≠ i := by
          rintro rfl
          exact h h3
        exact ⟨j, by omega, by omega, h3⟩

/-- The shift loop entered at `n` copies cell `j - 1` into cell `j` for
`1 <= j <= n` and leaves the other cells alone. -/
theorem shift_body_apply (body : Nat → Point) (n j : Nat) :
    shift_body body n j = if 1 ≤ j ∧ j ≤ n then body (j - 1) else body j := by
  induction n generalizing body with
  | zero =>
    have h0 : ¬ (1 ≤ j ∧ j ≤ 0) := by omega
    rw [shift_body, if_neg h0]
  | succ n ih =>
    rw [shift_body, ih]
    by_cases h1 : 1 ≤ j ∧ j ≤ n
    · have h2 : 1 ≤ j ∧ j ≤ n + 1 := ⟨h1.1, by omega⟩
      rw [if_pos h1, if_pos h2, Function.update_noteq (by omega)]
    · rw [if_neg h1]
      by_cases h3 : j = n + 1
      · subst h3
        simp
      · have h2 : ¬ (1 ≤ j ∧ j ≤ n + 1) := by omega
        rw [if_neg h2, Function.update_noteq h3]


/-- The placement loop changes nothing but `food.pos`. -/
theorem place_loop_frame (n : Nat) : ∀ (s : GameState) (draws : List Nat),
    draws.length ≤ n → ∀ s' rest, place_loop s draws = some (s', rest) →
      s' = { s with food := { s.food with pos := s'.food.pos } } := by
  induction n with
  | zero =>
    intro s draws hn s' rest h
    cases draws with
    | nil => simp [place_loop] at h
    | cons a t => simp at hn
  | succ n ih =>
    intro s draws hn s' rest h
    match draws, hn, h with
    | [], _, h => simp [place_loop] at h
    | [_], _, h => simp [place_loop] at h
    | ry :: rx :: t, hn, h =>
      rw [place_loop] at h
      simp only at h
      split at h
      · have := ih _ t (by simp at hn; omega) s' rest h
        rw [this]
      · simp only [Option.some.injEq, Prod.mk.injEq] at h
        rw [← h.1]

/-- The placement loop returns exactly when the draws hold a candidate off the
snake. -/
theorem place_loop_isSome (n : Nat) : ∀ (s : GameState) (draws : List Nat),
    draws.length ≤ n →
      ((place_loop s draws).isSome = true ↔
        ∃ p ∈ candidates draws,
          placed_on_snake s.snake.body p s.snake.length.toNat 0 = false) := by
  induction n with
  | zero =>
    intro s draws hn
    cases draws with
    | nil => simp [place_loop, candidates]
    | cons a t => simp at hn
  | succ n ih =>
    intro s draws hn
    match draws, hn with
    | [], _ => simp [place_loop, candidates]
    | [_], _ => simp [place_loop, candidates]
    | ry :: rx :: t, hn =>
      rw [place_loop, candidates]
      simp only [List.mem_cons, exists_eq_or_imp]
      split
      · rename_i hon
        rw [ih _ t (by simp at hn; omega)]
        simp only [hon, Bool.true_eq_false, false_or]
      · rename_i hoff
        simp only [Option.isSome_some, true_iff]
        left
        simpa using hoff

/-- When `place_random_food` returns. -/
theorem place_random_food_isSome (s : GameState) (draws : List Nat) :
    (place_random_food s draws).isSome = true ↔ placement_returns s draws := by
  unfold place_random_food placement_returns
  by_cases hw : s.game_win = 0
  · simp [hw]
  · simp only [hw, if_false, Option.isSome_map', false_or]
    exact place_loop_isSome draws.length s draws (le_refl _)

/-- The function `place_random_food` changes nothing but the food record. -/
theorem place_random_food_frame (s : GameState) (draws : List Nat) (s' : GameState)
    (rest : List Nat) (h : place_random_food s draws = some (s', rest)) :
    s' = { s with food := s'.food } := by
  unfold place_random_food at h
  split at h
  · simp only [Option.some.injEq, Prod.mk.injEq] at h
    rw [← h.1]
  · cases hl : place_loop s draws with
    | none => simp [hl] at h
    | some r =>
      obtain ⟨s1, r1⟩ := r
      simp only [hl, Option.map_some', Option.some.injEq, Prod.mk.injEq] at h
      have hf := place_loop_frame draws.length s draws (le_refl _) s1 r1 hl
      rw [← h.1, hf]

/-- A live direction always yields a new head. -/
theorem new_head_live (s : GameState) (hdir : s.snake.current_dir ≠ DIR_NONE) :
    ∃ p, new_head s = some p := by
  unfold new_head
  cases hd : s.snake.current_dir <;> simp [step_head]
  exact hdir hd

/-- The food test of `move_snake` in words. -/
theorem eats_food_iff (s : GameState) (p : Point) :
    eats_food s p = true ↔ s.food.active = true ∧ p = s.food.pos := by
  unfold eats_food
  cases p with
  | mk py px =>
    cases hf : s.food.pos with
    | mk fy fx =>
      simp only [Bool.and_eq_true, decide_eq_true_eq, Point.mk.injEq]
      tauto

/-- The predicate `will_eat` is the food test at the new head. -/
theorem will_eat_iff (s : GameState) (p : Point) (hp : new_head s = some p) :
    will_eat s ↔ eats_food s p = true := by
  unfold will_eat
  rw [eats_food_iff, hp, Option.some.injEq]

/-- What a returning `move_snake` did, for a positive length and a live
direction: the body advanced onto the new head, after growing and receiving a
new food record when the food was eaten. -/
theorem move_snake_cases (s : GameState) (draws : List Nat) (s' : GameState)
    (rest : List Nat) (hlen : 0 < s.snake.length) (hdir : s.snake.current_dir ≠ DIR_NONE)
    (h : move_snake s draws = some (s', rest)) :
    ∃ p, new_head s = some p ∧
      ((¬ will_eat s ∧ s' = advance s p ∧ rest = draws) ∨
        (will_eat s ∧ ∃ f : Food, s' = advance { grow s with food := f } p)) := by
  obtain ⟨p, hp⟩ := new_head_live s hdir
  refine ⟨p, hp, ?_⟩
  rw [will_eat_iff s p hp]
  unfold move_snake at h
  rw [if_neg (by tauto), if_neg (by omega), hp] at h
  simp only at h
  by_cases he : eats_food s p = true
  · right
    refine ⟨he, ?_⟩
    rw [if_pos he] at h
    cases hpl : place_random_food (grow s) draws with
    | none => simp [hpl] at h
    | some r =>
      obtain ⟨s1, r1⟩ := r
      simp only [hpl, Option.map_some', Option.some.injEq, Prod.mk.injEq] at h
      have hf := place_random_food_frame _ _ _ _ hpl
      refine ⟨s1.food, ?_⟩
      rw [← h.1]
      conv_lhs => rw [hf]
  · left
    refine ⟨he, ?_⟩
    rw [if_neg he] at h
    simp only [Option.map_some', Option.some.injEq, Prod.mk.injEq] at h
    exact ⟨h.1.symm, h.2.symm⟩

/-- When `move_snake` returns, for a positive length. -/
theorem move_snake_isSome (s : GameState) (draws : List Nat) (hlen : 0 < s.snake.length) :
    (move_snake s draws).isSome = true ↔ (¬ will_eat s ∨ placement_returns (grow s) draws) := by
  by_cases hdir : s.snake.current_dir = DIR_NONE
  · have hw : ¬ will_eat s := by
      unfold will_eat new_head
      rw [hdir]
      simp [step_head]
    unfold move_snake
    rw [if_pos ⟨hdir, hlen⟩]
    simp [hw]
  · obtain ⟨p, hp⟩ := new_head_live s hdir
    rw [will_eat_iff s p hp]
    unfold move_snake
    rw [if_neg (by tauto), if_neg (by omega), hp]
    simp only [Option.isSome_map']
    by_cases he : eats_food s p = true
    · rw [if_pos he, place_random_food_isSome]
      exact ⟨Or.inr, fun h => h.elim (fun hn => absurd he hn) id⟩
    · rw [if_neg he]
      simp [he]

/-- From a head on the board the new head is on the board. -/
theorem new_head_in_grid (s : GameState) (p : Point) (hg : in_grid (s.snake.body 0))
    (hp : new_head s = some p) : in_grid p := by
  unfold new_head at hp
  unfold in_grid GAME_AREA_WIDTH GAME_AREA_HEIGHT at *
  cases hd : s.snake.current_dir <;> rw [hd] at hp <;>
    simp only [step_head, Option.map_some', Option.map_none', Option.some.injEq] at hp
  case DIR_NONE => cases hp
  all_goals
    subst hp
    simp only [wrap_head, GAME_AREA_WIDTH, GAME_AREA_HEIGHT]
    refine ⟨?_, ?_, ?_, ?_⟩ <;> split_ifs <;> omega

/-- The body after `advance`, below the length: the new head, then the old cells
moved up by one. -/
theorem advance_body (t : GameState) (p : Point) (i : Nat) (hi : (i : Int) < t.snake.length) :
    (advance t p).snake.body i = if i = 0 then p else t.snake.body (i - 1) := by
  unfold advance
  simp only
  by_cases h0 : i = 0
  · subst h0
    simp
  · rw [Function.update_noteq h0, shift_body_apply, if_neg h0, if_pos]
    omega

/-- The function `advance` keeps the length. -/
theorem advance_length (t : GameState) (p : Point) :
    (advance t p).snake.length = t.snake.length := rfl


/-! ## The claims -/

/-- Claim C1: for every state with `0 <= snake.length <= 1800`,
`check_self_collision` returns true exactly when `snake.length >= 4` and some
index `i` with `1 <= i < snake.length` has `body[i]` equal to `body[0]` in both
coordinates; in particular it returns false for every snake of length 3. -/
theorem check_self_collision_iff (s : GameState)
    (h0 : 0 ≤ s.snake.length) (h1 : s.snake.length ≤ 1800) :
    (check_self_collision s = true ↔
      4 ≤ s.snake.length ∧
        ∃ i : Nat, 1 ≤ i ∧ (i : Int) < s.snake.length ∧
          (s.snake.body i).x = (s.snake.body 0).x ∧ (s.snake.body i).y = (s.snake.body 0).y) ∧
    (s.snake.length = 3 → check_self_collision s = false) := by
  constructor
  · unfold check_self_collision
    by_cases h : s.snake.length < 4
    · simp only [h, if_true]
      constructor
      · intro hf; cases hf
      · rintro ⟨h4, _⟩; omega
    · simp only [h, if_false, collision_scan_iff]
      constructor
      · rintro ⟨j, hj1, hj2, hx, hy⟩
        exact ⟨by omega, j, hj1, by omega, hx.symm, hy.symm⟩
      · rintro ⟨_, j, hj1, hj2, hx, hy⟩
        exact ⟨j, hj1, by omega, hx.symm, hy.symm⟩
  · intro h3
    simp [check_self_collision, h3]

theorem check_self_collision_iff_witness :
    (0 ≤ demo_loop.snake.length ∧ demo_loop.snake.length ≤ 1800) ∧
      check_self_collision demo_loop = true ∧ check_self_collision demo_three = false :=
  ⟨⟨by decide, by decide⟩,
    (check_self_collision_iff demo_loop (by decide) (by decide)).1.2
      ⟨by decide, 3, by decide, by decide, by decide, by decide⟩,
    (check_self_collision_iff demo_three (by decide) (by decide)).2 (by decide)⟩


/-- Claim C2, evaluated where the code departs from it: from the blank state,
with draws `15, 16` for the first food and `15, 16` again for its replacement,
one tick without a key is a run of `play` that ends with the food active and
on the cell of the head `body[0]`.  The replacement is compared with the body
as it is before the shift, which does not hold the new head yet. -/
theorem food_placed_on_new_head :
    ∃ s rest, play blank [15, 16, 15, 16] [ERR] = some (s, rest) ∧
      s.food.active = true ∧ 0 < s.snake.length ∧ s.snake.body 0 = ⟨15, 16⟩ ∧
      s.food.pos = s.snake.body 0 :=
  ⟨_, _, rfl, by decide, by decide, by decide, by decide⟩

/-- All three segments of `demo_edge` are on the board. -/
theorem demo_edge_in_grid :
    ∀ i : Nat, (i : Int) < demo_edge.snake.length → in_grid (demo_edge.snake.body i) := by
  intro i hi
  change (i : Int) < 3 at hi
  have h : i = 0 ∨ i = 1 ∨ i = 2 := by omega
  rcases h with rfl | rfl | rfl <;> decide

/-- Claim C3: for every state with `1 <= length <= 1800`, a live direction and
all segments `body[0 .. length-1]` on the 60 x 30 board, every segment of the
snake that `move_snake` returns is on the board again, edge cells included.
The second part says when `move_snake` returns: exactly when no food is eaten
or the placement of the new food returns on the given draws. -/
theorem move_snake_in_grid (s : GameState) (draws : List Nat)
    (hlo : 1 ≤ s.snake.length) (hhi : s.snake.length ≤ 1800)
    (hdir : s.snake.current_dir ≠ DIR_NONE)
    (hgrid : ∀ i : Nat, (i : Int) < s.snake.length → in_grid (s.snake.body i)) :
    (∀ s' rest, move_snake s draws = some (s', rest) →
      ∀ i : Nat, (i : Int) < s'.snake.length → in_grid (s'.snake.body i)) ∧
    ((move_snake s draws).isSome = true ↔
      (¬ will_eat s ∨ placement_returns (grow s) draws)) := by
  refine ⟨?_, move_snake_isSome s draws (by omega)⟩
  intro s' rest h i hi
  obtain ⟨p, hp, hc⟩ := move_snake_cases s draws s' rest (by omega) hdir h
  have hpg : in_grid p := new_head_in_grid s p (hgrid 0 (by omega)) hp
  rcases hc with ⟨_, hs, _⟩ | ⟨_, f, hs⟩
  · subst hs
    rw [advance_length] at hi
    rw [advance_body s p i hi]
    split_ifs with h0
    · exact hpg
    · exact hgrid (i - 1) (by omega)
  · subst hs
    rw [advance_length] at hi
    rw [advance_body _ p i hi]
    have hi' : (i : Int) < s.snake.length + 1 := by
      have : (grow s).snake.length ≤ s.snake.length + 1 := by
        unfold grow
        simp only
        split_ifs <;> omega
      exact lt_of_lt_of_le hi this
    split_ifs with h0
    · exact hpg
    · exact hgrid (i - 1) (by omega)

theorem move_snake_in_grid_witness :
    (1 ≤ demo_edge.snake.length ∧ demo_edge.snake.length ≤ 1800 ∧
      demo_edge.snake.current_dir ≠ DIR_NONE ∧
      ∀ i : Nat, (i : Int) < demo_edge.snake.length → in_grid (demo_edge.snake.body i)) ∧
    ∃ s' rest, move_snake demo_edge [] = some (s', rest) ∧ s'.snake.body 0 = ⟨0, 0⟩ ∧
      ∀ i : Nat, (i : Int) < s'.snake.length → in_grid (s'.snake.body i) :=
  ⟨⟨by decide, by decide, by decide, demo_edge_in_grid⟩,
    _, _, rfl, by decide,
    (move_snake_in_grid demo_edge [] (by decide) (by decide) (by decide)
      demo_edge_in_grid).1 _ _ rfl⟩

/-- From a head on the board the wrapped step is the step modulo the board. -/
theorem new_head_eq (s : GameState) (hg : in_grid (s.snake.body 0)) :
    (s.snake.current_dir = DIR_RIGHT →
      new_head s = some ⟨(s.snake.body 0).y, ((s.snake.body 0).x + 1) % 60⟩) ∧
    (s.snake.current_dir = DIR_LEFT →
      new_head s = some ⟨(s.snake.body 0).y, ((s.snake.body 0).x - 1) % 60⟩) ∧
    (s.snake.current_dir = DIR_DOWN →
      new_head s = some ⟨((s.snake.body 0).y + 1) % 30, (s.snake.body 0).x⟩) ∧
    (s.snake.current_dir = DIR_UP →
      new_head s = some ⟨((s.snake.body 0).y - 1) % 30, (s.snake.body 0).x⟩) := by
  unfold in_grid GAME_AREA_WIDTH GAME_AREA_HEIGHT at hg
  unfold new_head
  refine ⟨?_, ?_, ?_, ?_⟩ <;> intro hd <;> rw [hd] <;>
    simp only [step_head, Option.map_some', Option.some.injEq, wrap_head, GAME_AREA_WIDTH,
      GAME_AREA_HEIGHT, Point.mk.injEq] <;>
    constructor <;> split_ifs <;> omega

/-- The head after a returning `move_snake` is `new_head`. -/
theorem move_snake_head_eq (s : GameState) (draws : List Nat) (s' : GameState)
    (rest : List Nat) (hlen : 0 < s.snake.length) (hdir : s.snake.current_dir ≠ DIR_NONE)
    (h : move_snake s draws = some (s', rest)) : some (s'.snake.body 0) = new_head s := by
  obtain ⟨p, hp, hc⟩ := move_snake_cases s draws s' rest hlen hdir h
  rw [hp]
  rcases hc with ⟨_, hs, _⟩ | ⟨_, f, hs⟩ <;> subst hs <;> simp [advance]

/-- Claim C4: for every state with the head `(y, x)` on the board and
`length >= 1`, the head that `move_snake` returns is the unit step in
`current_dir` taken modulo the board: right `(y, (x+1) mod 60)`, left
`(y, (x-1) mod 60)`, down `((y+1) mod 30, x)`, up `((y-1) mod 30, x)`.  No edge
rejects a step: `move_snake` returns exactly when no food is eaten or the
placement of the new food returns. -/
theorem move_snake_head (s : GameState) (draws : List Nat)
    (hlen : 1 ≤ s.snake.length) (hgrid : in_grid (s.snake.body 0)) :
    (∀ s' rest, move_snake s draws = some (s', rest) →
      (s.snake.current_dir = DIR_RIGHT →
        s'.snake.body 0 = ⟨(s.snake.body 0).y, ((s.snake.body 0).x + 1) % 60⟩) ∧
      (s.snake.current_dir = DIR_LEFT →
        s'.snake.body 0 = ⟨(s.snake.body 0).y, ((s.snake.body 0).x - 1) % 60⟩) ∧
      (s.snake.current_dir = DIR_DOWN →
        s'.snake.body 0 = ⟨((s.snake.body 0).y + 1) % 30, (s.snake.body 0).x⟩) ∧
      (s.snake.current_dir = DIR_UP →
        s'.snake.body 0 = ⟨((s.snake.body 0).y - 1) % 30, (s.snake.body 0).x⟩)) ∧
    ((move_snake s draws).isSome = true ↔
      (¬ will_eat s ∨ placement_returns (grow s) draws)) := by
  refine ⟨?_, move_snake_isSome s draws (by omega)⟩
  intro s' rest h
  obtain ⟨hr, hl, hd, hu⟩ := new_head_eq s hgrid
  refine ⟨?_, ?_, ?_, ?_⟩ <;> intro hc
  · have := move_snake_head_eq s draws s' rest (by omega) (by rw [hc]; decide) h
    rw [hr hc] at this
    exact Option.some.inj this
  · have := move_snake_head_eq s draws s' rest (by omega) (by rw [hc]; decide) h
    rw [hl hc] at this
    exact Option.some.inj this
  · have := move_snake_head_eq s draws s' rest (by omega) (by rw [hc]; decide) h
    rw [hd hc] at this
    exact Option.some.inj this
  · have := move_snake_head_eq s draws s' rest (by omega) (by rw [hc]; decide) h
    rw [hu hc] at this
    exact Option.some.inj this

theorem move_snake_head_witness :
    (1 ≤ demo_edge.snake.length ∧ in_grid (demo_edge.snake.body 0)) ∧
    demo_edge.snake.body 0 = ⟨0, 59⟩ ∧ demo_edge.snake.current_dir = DIR_RIGHT ∧
    ∃ s' rest, move_snake demo_edge [] = some (s', rest) ∧ s'.snake.body 0 = ⟨0, 0⟩ :=
  ⟨⟨by decide, by decide⟩, by decide, by decide, _, _, rfl,
    ((move_snake_head demo_edge [] (by decide) (by decide)).1 _ _ rfl).1 (by decide)⟩

/-- Claim C5: for every state with `1 <= length <= 1800` and a live direction,
`move_snake` shifts the body.  Without a meal the length is unchanged and the
new `body[i]` is the old `body[i-1]` for `1 <= i < length`.  With a meal and
`length < 1800` the new length is the old length plus one and the new `body[i]`
is the old `body[i-1]` for `1 <= i <= old length`, so the old tail stays last.
`move_snake` returns exactly when no food is eaten or the placement returns. -/
theorem move_snake_shift (s : GameState) (draws : List Nat)
    (hlo : 1 ≤ s.snake.length) (hhi : s.snake.length ≤ 1800)
    (hdir : s.snake.current_dir ≠ DIR_NONE) :
    (∀ s' rest, move_snake s draws = some (s', rest) →
      (¬ will_eat s →
        s'.snake.length = s.snake.length ∧
        ∀ i : Nat, 1 ≤ i → (i : Int) < s.snake.length →
          s'.snake.body i = s.snake.body (i - 1)) ∧
      (will_eat s → s.snake.length < 1800 →
        s'.snake.length = s.snake.length + 1 ∧
        ∀ i : Nat, 1 ≤ i → (i : Int) ≤ s.snake.length →
          s'.snake.body i = s.snake.body (i - 1))) ∧
    ((move_snake s draws).isSome = true ↔
      (¬ will_eat s ∨ placement_returns (grow s) draws)) := by
  refine ⟨?_, move_snake_isSome s draws (by omega)⟩
  intro s' rest h
  obtain ⟨p, hp, hc⟩ := move_snake_cases s draws s' rest (by omega) hdir h
  rcases hc with ⟨hne, hs, _⟩ | ⟨he, f, hs⟩
  · refine ⟨fun _ => ⟨?_, ?_⟩, fun he => absurd he hne⟩
    · rw [hs, advance_length]
    · intro i h1 hi
      rw [hs, advance_body s p i hi, if_neg (by omega)]
  · refine ⟨fun hne => absurd he hne, fun _ hlt => ?_⟩
    have hg : (grow s).snake.length = s.snake.length + 1 := by
      unfold grow
      simp only
      rw [if_pos]
      unfold MAX_SNAKE_LENGTH GAME_AREA_WIDTH GAME_AREA_HEIGHT
      omega
    refine ⟨?_, ?_⟩
    · rw [hs, advance_length]
      exact hg
    · intro i h1 hi
      rw [hs, advance_body _ p i (by show (i : Int) < (grow s).snake.length; omega),
        if_neg (by omega)]
      rfl

theorem move_snake_shift_witness :
    (1 ≤ demo_three.snake.length ∧ demo_three.snake.length ≤ 1800 ∧
      demo_three.snake.current_dir ≠ DIR_NONE ∧ will_eat demo_three ∧
      demo_three.snake.length < 1800) ∧
    ∃ s' rest, move_snake demo_three [1, 1] = some (s', rest) ∧
      (s'.snake.length = demo_three.snake.length + 1 ∧
        ∀ i : Nat, 1 ≤ i → (i : Int) ≤ demo_three.snake.length →
          s'.snake.body i = demo_three.snake.body (i - 1)) ∧
      s'.snake.length = 4 ∧ s'.score = 1 ∧
      s'.snake.body 0 = ⟨5, 6⟩ ∧ s'.snake.body 1 = ⟨5, 5⟩ ∧
      s'.snake.body 2 = ⟨5, 4⟩ ∧ s'.snake.body 3 = ⟨5, 3⟩ :=
  ⟨⟨by decide, by decide, by decide, by decide, by decide⟩, _, _, rfl,
    ((move_snake_shift demo_three [1, 1] (by decide) (by decide) (by decide)).1 _ _ rfl).2
      (by decide) (by decide),
    by decide, by decide, by decide, by decide, by decide, by decide⟩

/-- In 32-bit arithmetic too, a live direction always yields a new head. -/
theorem new_head32_live (s : GameState) (hdir : s.snake.current_dir ≠ DIR_NONE) :
    ∃ p, new_head32 s = some p := by
  unfold new_head32
  cases hd : s.snake.current_dir <;> simp [step_head32]
  exact hdir hd

/-- The predicate `will_eat32` is the food test at the 32-bit new head. -/
theorem will_eat32_iff (s : GameState) (p : Point) (hp : new_head32 s = some p) :
    will_eat32 s ↔ eats_food s p = true := by
  unfold will_eat32
  rw [eats_food_iff, hp, Option.some.injEq]

/-- What a returning `move_snake32` did, for a positive length and a live
direction: the body advanced onto the new head, after `grow32` and a new food
record when the food was eaten. -/
theorem move_snake32_cases (s : GameState) (draws : List Nat) (s' : GameState)
    (rest : List Nat) (hlen : 0 < s.snake.length) (hdir : s.snake.current_dir ≠ DIR_NONE)
    (h : move_snake32 s draws = some (s', rest)) :
    ∃ p, new_head32 s = some p ∧
      ((¬ will_eat32 s ∧ s' = advance s p ∧ rest = draws) ∨
        (will_eat32 s ∧ ∃ f : Food, s' = advance { grow32 s with food := f } p)) := by
  obtain ⟨p, hp⟩ := new_head32_live s hdir
  refine ⟨p, hp, ?_⟩
  rw [will_eat32_iff s p hp]
  unfold move_snake32 at h
  rw [if_neg (by tauto), if_neg (by omega), hp] at h
  simp only at h
  by_cases he : eats_food s p = true
  · right
    refine ⟨he, ?_⟩
    rw [if_pos he] at h
    cases hpl : place_random_food (grow32 s) draws with
    | none => simp [hpl] at h
    | some r =>
      obtain ⟨s1, r1⟩ := r
      simp only [hpl, Option.map_some', Option.some.injEq, Prod.mk.injEq] at h
      have hf := place_random_food_frame _ _ _ _ hpl
      refine ⟨s1.food, ?_⟩
      rw [← h.1]
      conv_lhs => rw [hf]
  · left
    refine ⟨he, ?_⟩
    rw [if_neg he] at h
    simp only [Option.map_some', Option.some.injEq, Prod.mk.injEq] at h
    exact ⟨h.1.symm, h.2.symm⟩

/-- When `move_snake32` returns, for a positive length. -/
theorem move_snake32_isSome (s : GameState) (draws : List Nat) (hlen : 0 < s.snake.length) :
    (move_snake32 s draws).isSome = true ↔
      (¬ will_eat32 s ∨ placement_returns (grow32 s) draws) := by
  by_cases hdir : s.snake.current_dir = DIR_NONE
  · have hw : ¬ will_eat32 s := by
      unfold will_eat32 new_head32
      rw [hdir]
      simp [step_head32]
    unfold move_snake32
    rw [if_pos ⟨hdir, hlen⟩]
    simp [hw]
  · obtain ⟨p, hp⟩ := new_head32_live s hdir
    rw [will_eat32_iff s p hp]
    unfold move_snake32
    rw [if_neg (by tauto), if_neg (by omega), hp]
    simp only [Option.isSome_map']
    by_cases he : eats_food s p = true
    · rw [if_pos he, place_random_food_isSome]
      exact ⟨Or.inr, fun h => h.elim (fun hn => absurd he hn) id⟩
    · rw [if_neg he]
      simp [he]

/-- A result that fits into an `int` is stored as it is. -/
theorem int32_of_fits (x : Int) (h0 : -2147483648 ≤ x) (h1 : x ≤ 2147483647) :
    int32 x = x := by
  unfold int32
  omega

/-- Away from the limits of `int` the 32-bit `move_snake32` is `move_snake`: when
the head coordinates lie strictly between `INT_MIN` and `INT_MAX` and the score
is an `int` below `INT_MAX`, both return the same. -/
theorem move_snake32_eq (s : GameState) (draws : List Nat)
    (hx : INT_MIN < (s.snake.body 0).x ∧ (s.snake.body 0).x < INT_MAX)
    (hy : INT_MIN < (s.snake.body 0).y ∧ (s.snake.body 0).y < INT_MAX)
    (hs : INT_MIN ≤ s.score ∧ s.score < INT_MAX) :
    move_snake32 s draws = move_snake s draws := by
  unfold INT_MIN INT_MAX at hx hy hs
  have hstep : step_head32 (s.snake.body 0) s.snake.current_dir
      = step_head (s.snake.body 0) s.snake.current_dir := by
    cases s.snake.current_dir <;> simp only [step_head32, step_head]
    · rw [int32_of_fits _ (by omega) (by omega)]
    · rw [int32_of_fits _ (by omega) (by omega)]
    · rw [int32_of_fits _ (by omega) (by omega)]
    · rw [int32_of_fits _ (by omega) (by omega)]
  have hhead : new_head32 s = new_head s := by
    unfold new_head32 new_head
    rw [hstep]
  have hgrow : grow32 s = grow s := by
    unfold grow32 grow
    rw [int32_of_fits _ (by omega) (by omega)]
  unfold move_snake32 move_snake
  rw [hhead, hgrow]

/-- Claim C6 fails at the top of the `int` range: in `demo_max_score` (score
`INT_MAX`, food under the next head cell) the move eats, and the 32-bit
`score++` leaves `INT_MIN`, not the score plus one. -/
theorem move_snake32_score_overflow :
    (1 ≤ demo_max_score.snake.length ∧ demo_max_score.snake.length ≤ 1800 ∧
      demo_max_score.snake.current_dir ≠ DIR_NONE) ∧
    demo_max_score.score = 2147483647 ∧ will_eat32 demo_max_score ∧
    ∃ s' rest, move_snake32 demo_max_score [1, 1] = some (s', rest) ∧
      s'.score = -2147483648 ∧ s'.score ≠ demo_max_score.score + 1 :=
  ⟨⟨by decide, by decide, by decide⟩, by decide, by decide, _, _, rfl, by decide, by decide⟩

/-- Claim C6, amended: for every state with `1 <= length <= 1800` and a live
direction, computed in the 32-bit `int` of the program, `move_snake` takes the
eating branch if and only if the food is active and the wrapped new head is the
food cell.  In that branch the length grows by 1, or by 0 when it is already
1800, and `score++` is carried out; otherwise score, length, food position and
the active flag are all unchanged.  Whenever the score is an `int` below
`INT_MAX = 2147483647`, the score has grown by exactly 1 if and only if the
food was eaten.  `move_snake` returns exactly when no food is eaten or the
placement returns. -/
theorem move_snake32_score (s : GameState) (draws : List Nat)
    (hlo : 1 ≤ s.snake.length) (hhi : s.snake.length ≤ 1800)
    (hdir : s.snake.current_dir ≠ DIR_NONE) :
    (∀ s' rest, move_snake32 s draws = some (s', rest) →
      (INT_MIN ≤ s.score → s.score < INT_MAX →
        ((s'.score = s.score + 1 ↔ will_eat32 s) ∧
          (will_eat32 s → s'.score = s.score + 1))) ∧
      (will_eat32 s →
        s'.score = int32 (s.score + 1) ∧
        s'.snake.length = if s.snake.length < 1800 then s.snake.length + 1 else s.snake.length) ∧
      (¬ will_eat32 s →
        s'.score = s.score ∧ s'.snake.length = s.snake.length ∧
        s'.food.pos = s.food.pos ∧ s'.food.active = s.food.active)) ∧
    ((move_snake32 s draws).isSome = true ↔
      (¬ will_eat32 s ∨ placement_returns (grow32 s) draws)) := by
  refine ⟨?_, move_snake32_isSome s draws (by omega)⟩
  intro s' rest h
  obtain ⟨p, hp, hc⟩ := move_snake32_cases s draws s' rest (by omega) hdir h
  rcases hc with ⟨hne, hs, _⟩ | ⟨he, f, hs⟩
  · have hsc : s'.score = s.score := by rw [hs]; rfl
    refine ⟨fun _ _ => ⟨⟨fun h1 => ?_, fun he => absurd he hne⟩, fun he => absurd he hne⟩,
      fun he => absurd he hne, fun _ => ⟨hsc, ?_, ?_, ?_⟩⟩
    · omega
    · rw [hs]; rfl
    · rw [hs]; rfl
    · rw [hs]; rfl
  · have hsc : s'.score = int32 (s.score + 1) := by rw [hs]; rfl
    refine ⟨fun hmin hmax => ?_, fun _ => ⟨hsc, ?_⟩, fun hne => absurd he hne⟩
    · unfold INT_MIN at hmin
      unfold INT_MAX at hmax
      have hfit : s'.score = s.score + 1 := by
        rw [hsc, int32_of_fits _ (by omega) (by omega)]
      exact ⟨⟨fun _ => he, fun _ => hfit⟩, fun _ => hfit⟩
    · rw [hs]
      rfl

theorem move_snake32_score_witness :
    (1 ≤ demo_three.snake.length ∧ demo_three.snake.length ≤ 1800 ∧
      demo_three.snake.current_dir ≠ DIR_NONE ∧ will_eat32 demo_three ∧
      INT_MIN ≤ demo_three.score ∧ demo_three.score < INT_MAX) ∧
    ∃ s' rest, move_snake32 demo_three [7, 9] = some (s', rest) ∧
      ((s'.score = demo_three.score + 1 ↔ will_eat32 demo_three) ∧
        (will_eat32 demo_three → s'.score = demo_three.score + 1)) ∧
      s'.score = 1 ∧ s'.snake.length = 4 :=
  ⟨⟨by decide, by decide, by decide, by decide, by decide, by decide⟩, _, _, rfl,
    ((move_snake32_score demo_three [7, 9] (by decide) (by decide) (by decide)).1 _ _ rfl).1
      (by decide) (by decide),
    by decide, by decide⟩

/-- The three things `process_input` can do: nothing, store a live direction that
is not the opposite of the last move, or raise `quit_game`. -/
theorem process_input_cases (s : GameState) (ch : Int) :
    process_input s ch = s ∨
    (∃ d : Direction, d ≠ DIR_NONE ∧ s.snake.last_input_dir ≠ opposite d ∧
      process_input s ch = { s with snake := { s.snake with current_dir := d } }) ∨
    process_input s ch = { s with quit_game := true } := by
  unfold process_input
  split_ifs
  all_goals first
    | exact Or.inl rfl
    | exact Or.inr (Or.inr rfl)
    | exact Or.inr (Or.inl ⟨DIR_LEFT, by decide, by assumption, rfl⟩)
    | exact Or.inr (Or.inl ⟨DIR_DOWN, by decide, by assumption, rfl⟩)
    | exact Or.inr (Or.inl ⟨DIR_UP, by decide, by assumption, rfl⟩)
    | exact Or.inr (Or.inl ⟨DIR_RIGHT, by decide, by assumption, rfl⟩)

/-- The function `process_input` keeps the length. -/
theorem process_input_length (s : GameState) (ch : Int) :
    (process_input s ch).snake.length = s.snake.length := by
  rcases process_input_cases s ch with h | ⟨d, _, _, h⟩ | h <;> rw [h]

/-- Growing keeps the length between its old value and the capacity. -/
theorem grow_length_bounds (s : GameState) (hhi : s.snake.length ≤ 1800) :
    s.snake.length ≤ (grow s).snake.length ∧ (grow s).snake.length ≤ 1800 := by
  unfold grow MAX_SNAKE_LENGTH GAME_AREA_WIDTH GAME_AREA_HEIGHT
  simp only
  split_ifs <;> omega

/-- The function `move_snake` never shortens the snake nor exceeds the capacity. -/
theorem move_snake_length (s : GameState) (draws : List Nat) (s' : GameState)
    (rest : List Nat) (hhi : s.snake.length ≤ 1800)
    (h : move_snake s draws = some (s', rest)) :
    s.snake.length ≤ s'.snake.length ∧ s'.snake.length ≤ 1800 := by
  by_cases hlen : 0 < s.snake.length
  · by_cases hdir : s.snake.current_dir = DIR_NONE
    · unfold move_snake at h
      rw [if_pos ⟨hdir, hlen⟩] at h
      simp only [Option.some.injEq, Prod.mk.injEq] at h
      rw [← h.1]
      omega
    · obtain ⟨p, _, hc⟩ := move_snake_cases s draws s' rest hlen hdir h
      rcases hc with ⟨_, hs, _⟩ | ⟨_, f, hs⟩
      · rw [hs, advance_length]
        omega
      · rw [hs, advance_length]
        exact grow_length_bounds s hhi
  · unfold move_snake at h
    rw [if_neg (by tauto), if_pos (by omega)] at h
    simp only [Option.some.injEq, Prod.mk.injEq] at h
    rw [← h.1]
    omega

/-- The function `update_game_logic` never shortens the snake nor exceeds the
capacity. -/
theorem update_game_logic_length (s : GameState) (draws : List Nat) (s' : GameState)
    (rest : List Nat) (hhi : s.snake.length ≤ 1800)
    (h : update_game_logic s draws = some (s', rest)) :
    s.snake.length ≤ s'.snake.length ∧ s'.snake.length ≤ 1800 := by
  unfold update_game_logic at h
  split_ifs at h with hend
  · simp only [Option.some.injEq, Prod.mk.injEq] at h
    rw [← h.1]
    omega
  · cases hm : move_snake s draws with
    | none => simp [hm] at h
    | some r =>
      obtain ⟨s1, r1⟩ := r
      simp only [hm, Option.map_some', Option.some.injEq, Prod.mk.injEq] at h
      have hb := move_snake_length s draws s1 r1 hhi hm
      rw [← h.1]
      split_ifs <;> exact hb

/-- One tick never shortens the snake nor exceeds the capacity. -/
theorem tick_length_bounds (s : GameState) (ch : Int) (draws : List Nat) (s' : GameState)
    (rest : List Nat) (hhi : s.snake.length ≤ 1800) (h : tick s ch draws = some (s', rest)) :
    s.snake.length ≤ s'.snake.length ∧ s'.snake.length ≤ 1800 := by
  unfold tick at h
  have := update_game_logic_length _ draws s' rest
    (by rw [process_input_length]; exact hhi) h
  rw [process_input_length] at this
  exact this

/-- A run of ticks never shortens the snake nor exceeds the capacity. -/
theorem run_ticks_length (keys : List Int) : ∀ (s : GameState) (draws : List Nat)
    (s' : GameState) (rest : List Nat), s.snake.length ≤ 1800 →
    run_ticks s draws keys = some (s', rest) →
    s.snake.length ≤ s'.snake.length ∧ s'.snake.length ≤ 1800 := by
  induction keys with
  | nil =>
    intro s draws s' rest hhi h
    simp only [run_ticks, Option.some.injEq, Prod.mk.injEq] at h
    rw [← h.1]
    omega
  | cons ch keys ih =>
    intro s draws s' rest hhi h
    rw [run_ticks] at h
    cases ht : tick s ch draws with
    | none => simp [ht] at h
    | some r =>
      obtain ⟨s1, r1⟩ := r
      simp only [ht] at h
      have h1 := tick_length_bounds s ch draws s1 r1 hhi ht
      have h2 := ih s1 r1 s' rest h1.2 h
      omega

/-- The set-up leaves a snake of length 3. -/
theorem start_game_length (s0 : GameState) (draws : List Nat) (s : GameState)
    (rest : List Nat) (h : start_game s0 draws = some (s, rest)) : s.snake.length = 3 := by
  unfold start_game at h
  rw [place_random_food_frame _ _ _ _ h]
  rfl

/-- When `update_game_logic` returns, for a positive length. -/
theorem update_game_logic_isSome (s : GameState) (draws : List Nat)
    (hlen : 0 < s.snake.length) :
    (update_game_logic s draws).isSome = true ↔
      (s.game_over = true ∨ s.quit_game = true ∨ ¬ will_eat s ∨
        placement_returns (grow s) draws) := by
  unfold update_game_logic
  split_ifs with hend
  · simp only [Option.isSome_some, true_iff]
    tauto
  · rw [Option.isSome_map', move_snake_isSome s draws hlen]
    constructor
    · intro h
      exact Or.inr (Or.inr h)
    · rintro (h | h | h)
      · exact absurd (Or.inl h) hend
      · exact absurd (Or.inr h) hend
      · exact h

/-- Claim C7: for every state with `1 <= snake.length <= 1800`, any key code and
any draws, the length after one tick is at least the length before, at least 1
and at most `1800 = 60 * 30`, and the tick returns exactly when the game has
ended, no food is eaten or the placement returns.  Hence along every run of
`play` (set-up, then ticks) the length never decreases, starts from at least 3
and never exceeds the number of cells. -/
theorem length_monotone :
    (∀ (s : GameState) (ch : Int) (draws : List Nat),
      1 ≤ s.snake.length → s.snake.length ≤ 1800 →
      (∀ s' rest, tick s ch draws = some (s', rest) →
        s.snake.length ≤ s'.snake.length ∧ 1 ≤ s'.snake.length ∧ s'.snake.length ≤ 60 * 30) ∧
      ((tick s ch draws).isSome = true ↔
        ((process_input s ch).game_over = true ∨ (process_input s ch).quit_game = true ∨
          ¬ will_eat (process_input s ch) ∨
          placement_returns (grow (process_input s ch)) draws))) ∧
    (∀ (s0 : GameState) (draws : List Nat) (keys more : List Int)
      (s : GameState) (rest : List Nat) (s' : GameState) (rest' : List Nat),
      play s0 draws keys = some (s, rest) → run_ticks s rest more = some (s', rest') →
      3 ≤ s.snake.length ∧ s.snake.length ≤ s'.snake.length ∧ s'.snake.length ≤ 60 * 30) := by
  constructor
  · intro s ch draws hlo hhi
    constructor
    · intro s' rest h
      have := tick_length_bounds s ch draws s' rest hhi h
      omega
    · unfold tick
      exact update_game_logic_isSome _ draws (by rw [process_input_length]; omega)
  · intro s0 draws keys more s rest s' rest' hp hr
    unfold play at hp
    cases hs : start_game s0 draws with
    | none => simp [hs] at hp
    | some r =>
      obtain ⟨s1, r1⟩ := r
      simp only [hs] at hp
      have h3 := start_game_length s0 draws s1 r1 hs
      have h1 := run_ticks_length keys s1 r1 s rest (by omega) hp
      have h2 := run_ticks_length more s rest s' rest' h1.2 hr
      omega

theorem length_monotone_witness :
    (1 ≤ demo_three.snake.length ∧ demo_three.snake.length ≤ 1800) ∧
    (∃ s' rest, tick demo_three ERR [1, 1] = some (s', rest) ∧ s'.snake.length = 4 ∧
      demo_three.snake.length ≤ s'.snake.length ∧ 1 ≤ s'.snake.length ∧
      s'.snake.length ≤ 60 * 30) ∧
    (∃ s rest s' rest', play blank [15, 16, 2, 2] [ERR] = some (s, rest) ∧
      run_ticks s rest [107, ERR] = some (s', rest') ∧
      3 ≤ s.snake.length ∧ s.snake.length ≤ s'.snake.length ∧ s'.snake.length ≤ 60 * 30) :=
  ⟨⟨by decide, by decide⟩,
    ⟨_, _, rfl, by decide,
      ((length_monotone.1 demo_three ERR [1, 1] (by decide) (by decide)).1 _ _ rfl)⟩,
    ⟨_, _, _, _, rfl, rfl,
      length_monotone.2 blank [15, 16, 2, 2] [ERR] [107, ERR] _ _ _ _ rfl rfl⟩⟩

/-- The keys behind each requested direction. -/
theorem requested_dir_cases (ch : Int) (D : Direction) (h : requested_dir ch = some D) :
    (D = DIR_LEFT ∧ (ch = 104 ∨ ch = KEY_LEFT)) ∨
    (D = DIR_DOWN ∧ (ch = 106 ∨ ch = KEY_DOWN)) ∨
    (D = DIR_UP ∧ (ch = 107 ∨ ch = KEY_UP)) ∨
    (D = DIR_RIGHT ∧ (ch = 108 ∨ ch = KEY_RIGHT)) := by
  unfold requested_dir at h
  split_ifs at h with h1 h2 h3 h4
  · exact Or.inl ⟨(Option.some.inj h).symm, h1⟩
  · exact Or.inr (Or.inl ⟨(Option.some.inj h).symm, h2⟩)
  · exact Or.inr (Or.inr (Or.inl ⟨(Option.some.inj h).symm, h3⟩))
  · exact Or.inr (Or.inr (Or.inr ⟨(Option.some.inj h).symm, h4⟩))

/-- With a window, a direction key stores its direction unless it is the opposite
of the last move. -/
theorem process_input_key (s : GameState) (ch : Int) (D : Direction)
    (hwin : s.game_win ≠ 0) (hkey : requested_dir ch = some D) :
    process_input s ch =
      if s.snake.last_input_dir ≠ opposite D then
        { s with snake := { s.snake with current_dir := D } }
      else s := by
  have hk := hkey
  unfold requested_dir at hk
  unfold process_input
  rw [if_neg hwin]
  split_ifs at hk with h1 h2 h3 h4 <;> cases Option.some.inj hk
  · rw [if_pos h1]; rfl
  · rw [if_neg h1, if_pos h2]; rfl
  · rw [if_neg h1, if_neg h2, if_pos h3]; rfl
  · rw [if_neg h1, if_neg h2, if_neg h3, if_pos h4]; rfl

/-- Claim C8 fails without a window: in `demo_null` (`game_win == NULL`, last move
right) the key `j` asks for down, which is not the opposite of right, and
`process_input` still leaves `current_dir` at right. -/
theorem process_input_null_window :
    requested_dir 106 = some DIR_DOWN ∧
    demo_null.snake.last_input_dir ≠ opposite DIR_DOWN ∧
    (process_input demo_null 106).snake.current_dir ≠ DIR_DOWN ∧
    ¬ (∀ (s : GameState) (ch : Int) (D : Direction), requested_dir ch = some D →
        s.snake.last_input_dir ≠ opposite D → (process_input s ch).snake.current_dir = D) :=
  ⟨by decide, by decide, by decide,
    fun h => absurd (h demo_null 106 DIR_DOWN (by decide) (by decide)) (by decide)⟩

/-- Claim C8, amended: without a window `process_input` changes nothing; with a
window, for every direction key (`h j k l` or an arrow code) asking for `D`,
`process_input` stores `D` in `current_dir` when `D` is not the opposite of
`last_input_dir` and leaves the whole state unchanged when it is.  So after a
move to the right (both direction fields right) the key for left changes
nothing: the next `move_snake` is the one of the state before the key and steps
to the right. -/
theorem process_input_reversal_guard (s : GameState) (ch : Int) (D : Direction)
    (hkey : requested_dir ch = some D) :
    (s.game_win = 0 → process_input s ch = s) ∧
    (s.game_win ≠ 0 → s.snake.last_input_dir ≠ opposite D →
      process_input s ch = { s with snake := { s.snake with current_dir := D } }) ∧
    (s.game_win ≠ 0 → s.snake.last_input_dir = opposite D → process_input s ch = s) ∧
    (D = DIR_LEFT → s.snake.last_input_dir = DIR_RIGHT → s.snake.current_dir = DIR_RIGHT →
      1 ≤ s.snake.length →
      ∀ draws, move_snake (process_input s ch) draws = move_snake s draws ∧
        ∀ s' rest, move_snake (process_input s ch) draws = some (s', rest) →
          s'.snake.last_input_dir = DIR_RIGHT ∧
          s'.snake.body 0 =
            wrap_head ⟨(s.snake.body 0).y, (s.snake.body 0).x + 1⟩) := by
  have hnull : s.game_win = 0 → process_input s ch = s := by
    intro h0
    unfold process_input
    rw [if_pos h0]
  refine ⟨hnull, fun hwin h => ?_, fun hwin h => ?_, ?_⟩
  · rw [process_input_key s ch D hwin hkey, if_pos h]
  · rw [process_input_key s ch D hwin hkey, if_neg (not_not.mpr h)]
  · intro hD hlast hcur hlen draws
    have hsame : process_input s ch = s := by
      by_cases hwin : s.game_win = 0
      · exact hnull hwin
      · rw [process_input_key s ch D hwin hkey, if_neg]
        rw [hD, hlast]
        decide
    rw [hsame]
    refine ⟨rfl, fun s' rest hm => ?_⟩
    obtain ⟨p, hnh, hc⟩ := move_snake_cases s draws s' rest (by omega) (by rw [hcur]; decide) hm
    have hpe : p = wrap_head ⟨(s.snake.body 0).y, (s.snake.body 0).x + 1⟩ := by
      unfold new_head at hnh
      rw [hcur] at hnh
      simp only [step_head, Option.map_some', Option.some.injEq] at hnh
      exact hnh.symm
    rcases hc with ⟨_, hs, _⟩ | ⟨_, f, hs⟩
    · subst hs
      exact ⟨hcur, by rw [← hpe]; simp [advance]⟩
    · subst hs
      exact ⟨hcur, by rw [← hpe]; simp [advance]⟩

theorem process_input_reversal_guard_witness :
    (requested_dir KEY_LEFT = some DIR_LEFT ∧ demo_three.game_win ≠ 0 ∧
      demo_three.snake.last_input_dir = opposite DIR_LEFT) ∧
    process_input demo_three KEY_LEFT = demo_three ∧
    (∃ s' rest, move_snake (process_input demo_three KEY_LEFT) [1, 1] = some (s', rest) ∧
      s'.snake.last_input_dir = DIR_RIGHT ∧ s'.snake.body 0 = ⟨5, 6⟩) ∧
    (requested_dir 107 = some DIR_UP ∧ demo_three.snake.last_input_dir ≠ opposite DIR_UP) ∧
    (process_input demo_three 107).snake.current_dir = DIR_UP :=
  ⟨⟨by decide, by decide, by decide⟩,
    (process_input_reversal_guard demo_three KEY_LEFT DIR_LEFT (by decide)).2.2.1
      (by decide) (by decide),
    ⟨_, _, rfl,
      ((process_input_reversal_guard demo_three KEY_LEFT DIR_LEFT (by decide)).2.2.2
        rfl rfl rfl (by decide) [1, 1]).2 _ _ rfl⟩,
    ⟨by decide, by decide⟩,
    congrArg (fun t => t.snake.current_dir)
      ((process_input_reversal_guard demo_three 107 DIR_UP (by decide)).2.1
        (by decide) (by decide))⟩

/-- The invariant holds after `init_game_state`. -/
theorem dir_inv_init (s0 : GameState) : dir_inv (init_game_state s0) := by
  unfold dir_inv
  refine ⟨?_, ?_, ?_, ?_⟩ <;> simp [init_game_state, INITIAL_SNAKE_LENGTH, opposite]

/-- The function `process_input` preserves the invariant. -/
theorem dir_inv_process_input (s : GameState) (ch : Int) (h : dir_inv s) :
    dir_inv (process_input s ch) := by
  rcases process_input_cases s ch with e | ⟨d, hd, hl, e⟩ | e
  · rw [e]; exact h
  · rw [e]
    refine ⟨hd, ?_, h.2.2.1, h.2.2.2⟩
    show d ≠ opposite s.snake.last_input_dir
    revert hl hd
    cases d <;> cases s.snake.last_input_dir <;> decide
  · rw [e]; exact h

/-- A live direction is not its own opposite. -/
theorem opposite_ne_self (d : Direction) (h : d ≠ DIR_NONE) : d ≠ opposite d := by
  revert h
  cases d <;> decide

/-- A returning `move_snake` preserves the invariant and records the direction it
applied. -/
theorem dir_inv_move_snake (s : GameState) (draws : List Nat) (s' : GameState)
    (rest : List Nat) (h : dir_inv s) (hm : move_snake s draws = some (s', rest)) :
    dir_inv s' ∧ s'.snake.last_input_dir = s.snake.current_dir ∧
      s'.snake.current_dir = s.snake.current_dir := by
  obtain ⟨hn, ho, hlo, hhi⟩ := h
  have hb := move_snake_length s draws s' rest hhi hm
  obtain ⟨p, _, hc⟩ := move_snake_cases s draws s' rest (by omega) hn hm
  have hd : s'.snake.last_input_dir = s.snake.current_dir ∧
      s'.snake.current_dir = s.snake.current_dir := by
    rcases hc with ⟨_, hs, _⟩ | ⟨_, f, hs⟩ <;> subst hs <;> exact ⟨rfl, rfl⟩
  refine ⟨⟨?_, ?_, by omega, hb.2⟩, hd⟩
  · rw [hd.2]; exact hn
  · rw [hd.1, hd.2]; exact opposite_ne_self _ hn

/-- The function `update_game_logic` preserves the invariant. -/
theorem dir_inv_update (s : GameState) (draws : List Nat) (s' : GameState)
    (rest : List Nat) (h : dir_inv s) (hu : update_game_logic s draws = some (s', rest)) :
    dir_inv s' := by
  unfold update_game_logic at hu
  split_ifs at hu with hend
  · simp only [Option.some.injEq, Prod.mk.injEq] at hu
    rw [← hu.1]
    exact h
  · cases hm : move_snake s draws with
    | none => simp [hm] at hu
    | some r =>
      obtain ⟨s1, r1⟩ := r
      simp only [hm, Option.map_some', Option.some.injEq, Prod.mk.injEq] at hu
      have hi := (dir_inv_move_snake s draws s1 r1 h hm).1
      rw [← hu.1]
      split_ifs
      · exact hi
      · exact hi

/-- The function `place_random_food` preserves the invariant. -/
theorem dir_inv_place (s : GameState) (draws : List Nat) (s' : GameState)
    (rest : List Nat) (h : dir_inv s) (hp : place_random_food s draws = some (s', rest)) :
    dir_inv s' := by
  rw [place_random_food_frame s draws s' rest hp]
  exact h

/-- Every sequence of calls preserves the invariant. -/
theorem dir_inv_run_ops (ops : List Op) : ∀ (s t : GameState), dir_inv s →
    run_ops s ops = some t → dir_inv t := by
  induction ops with
  | nil =>
    intro s t h hr
    simp only [run_ops, Option.some.injEq] at hr
    rw [← hr]
    exact h
  | cons op ops ih =>
    intro s t h hr
    rw [run_ops] at hr
    cases ha : apply_op s op with
    | none => simp [ha] at hr
    | some next =>
      simp only [ha] at hr
      refine ih next t ?_ hr
      cases op with
      | input ch =>
        simp only [apply_op, Option.some.injEq] at ha
        rw [← ha]
        exact dir_inv_process_input s ch h
      | update draws =>
        simp only [apply_op, Option.map_eq_some', Prod.exists, exists_and_right,
          exists_eq_right] at ha
        obtain ⟨r, hu⟩ := ha
        exact dir_inv_update s draws next r h hu
      | place draws =>
        simp only [apply_op, Option.map_eq_some', Prod.exists, exists_and_right,
          exists_eq_right] at ha
        obtain ⟨r, hu⟩ := ha
        exact dir_inv_place s draws next r h hu

/-- Claim C9: in every state reached from `init_game_state` by any sequence of
calls of `process_input`, `update_game_logic` and `place_random_food`,
`current_dir` is one of up, down, left, right and is not the opposite of
`last_input_dir`; and every `move_snake` that returns from such a state leaves
`last_input_dir` equal to the direction it applied, the head having taken the
step in that direction. -/
theorem direction_invariant (s0 : GameState) (ops : List Op) (s : GameState)
    (h : run_ops (init_game_state s0) ops = some s) :
    (s.snake.current_dir = DIR_UP ∨ s.snake.current_dir = DIR_DOWN ∨
      s.snake.current_dir = DIR_LEFT ∨ s.snake.current_dir = DIR_RIGHT) ∧
    s.snake.current_dir ≠ opposite s.snake.last_input_dir ∧
    (∀ draws s' rest, move_snake s draws = some (s', rest) →
      s'.snake.last_input_dir = s.snake.current_dir ∧
      some (s'.snake.body 0) = new_head s) := by
  have hi := dir_inv_run_ops ops _ s (dir_inv_init s0) h
  refine ⟨?_, hi.2.1, ?_⟩
  · have hn := hi.1
    revert hn
    cases s.snake.current_dir <;> decide
  · intro draws s' rest hm
    exact ⟨(dir_inv_move_snake s draws s' rest hi hm).2.1,
      move_snake_head_eq s draws s' rest (by have := hi.2.2.1; omega) hi.1 hm⟩

theorem direction_invariant_witness :
    ∃ s, run_ops (init_game_state blank)
        [Op.place [15, 16], Op.input 107, Op.input 106, Op.update [], Op.input 104] = some s ∧
      s.snake.current_dir = DIR_LEFT ∧ s.snake.last_input_dir = DIR_DOWN ∧
      s.snake.current_dir ≠ opposite s.snake.last_input_dir :=
  ⟨_, rfl, by decide, by decide,
    (direction_invariant blank
      [Op.place [15, 16], Op.input 107, Op.input 106, Op.update [], Op.input 104] _ rfl).2.1⟩

/-- Claim C10: end states are absorbing.  When `game_over` or `quit_game` is true,
`update_game_logic` returns the state, and the draws, exactly as it got them;
and for every state and key code neither `process_input` nor
`update_game_logic` turns a true `game_over` or `quit_game` into false. -/
theorem terminal_absorbing (s : GameState) :
    (s.game_over = true ∨ s.quit_game = true →
      ∀ draws, update_game_logic s draws = some (s, draws)) ∧
    (∀ ch, (s.game_over = true → (process_input s ch).game_over = true) ∧
      (s.quit_game = true → (process_input s ch).quit_game = true)) ∧
    (∀ draws s' rest, update_game_logic s draws = some (s', rest) →
      (s.game_over = true → s'.game_over = true) ∧
      (s.quit_game = true → s'.quit_game = true)) := by
  have hterm : s.game_over = true ∨ s.quit_game = true →
      ∀ draws, update_game_logic s draws = some (s, draws) := by
    intro h draws
    unfold update_game_logic
    rw [if_pos h]
  refine ⟨hterm, ?_, ?_⟩
  · intro ch
    rcases process_input_cases s ch with e | ⟨d, _, _, e⟩ | e <;> rw [e]
    · exact ⟨id, id⟩
    · exact ⟨id, id⟩
    · exact ⟨id, fun _ => rfl⟩
  · intro draws s' rest hu
    constructor
    · intro hg
      rw [hterm (Or.inl hg) draws] at hu
      simp only [Option.some.injEq, Prod.mk.injEq] at hu
      rw [← hu.1]
      exact hg
    · intro hq
      rw [hterm (Or.inr hq) draws] at hu
      simp only [Option.some.injEq, Prod.mk.injEq] at hu
      rw [← hu.1]
      exact hq

theorem terminal_absorbing_witness :
    (demo_over.game_over = true ∨ demo_over.quit_game = true) ∧
    update_game_logic demo_over [1, 1] = some (demo_over, [1, 1]) ∧
    (process_input demo_over 108).game_over = true :=
  ⟨Or.inl rfl, (terminal_absorbing demo_over).1 (Or.inl rfl) [1, 1],
    ((terminal_absorbing demo_over).2.1 108).1 rfl⟩

/-! ## Placement, set-up and input in detail -/

/-- Every candidate that a list of draws holds is on the board. -/
theorem candidates_in_grid (n : Nat) : ∀ (draws : List Nat), draws.length ≤ n →
    ∀ p ∈ candidates draws, in_grid p := by
  induction n with
  | zero =>
    intro draws hn p hp
    cases draws with
    | nil => simp [candidates] at hp
    | cons a t => simp at hn
  | succ n ih =>
    intro draws hn p hp
    match draws, hn, hp with
    | [], _, hp => simp [candidates] at hp
    | [_], _, hp => simp [candidates] at hp
    | ry :: rx :: t, hn, hp =>
      rw [candidates, List.mem_cons] at hp
      rcases hp with rfl | hp
      · unfold in_grid GAME_AREA_WIDTH GAME_AREA_HEIGHT
        simp only
        omega
      · exact ih t (by simp at hn; omega) p hp

/-- A returning placement loop stops at the first candidate off the snake: the
candidate at some position `k` is accepted, all earlier ones lie on the snake,
and exactly the draws of the first `k + 1` candidates are used up. -/
theorem place_loop_first (n : Nat) : ∀ (s : GameState) (draws : List Nat),
    draws.length ≤ n → ∀ s' rest, place_loop s draws = some (s', rest) →
      ∃ k : Nat, (candidates draws)[k]? = some s'.food.pos ∧
        placed_on_snake s.snake.body s'.food.pos s.snake.length.toNat 0 = false ∧
        (∀ j q, j < k → (candidates draws)[j]? = some q →
          placed_on_snake s.snake.body q s.snake.length.toNat 0 = true) ∧
        rest = draws.drop (2 * (k + 1)) := by
  induction n with
  | zero =>
    intro s draws hn s' rest h
    cases draws with
    | nil => simp [place_loop] at h
    | cons a t => simp at hn
  | succ n ih =>
    intro s draws hn s' rest h
    match draws, hn, h with
    | [], _, h => simp [place_loop] at h
    | [_], _, h => simp [place_loop] at h
    | ry :: rx :: t, hn, h =>
      rw [place_loop] at h
      simp only at h
      split at h
      · rename_i hon
        obtain ⟨k, hk, hoff, hbefore, hrest⟩ := ih _ t (by simp at hn; omega) s' rest h
        refine ⟨k + 1, ?_, hoff, ?_, ?_⟩
        · rw [candidates, List.getElem?_cons_succ]
          exact hk
        · intro j q hj hq
          cases j with
          | zero =>
            rw [candidates, List.getElem?_cons_zero, Option.some.injEq] at hq
            rw [← hq]
            exact hon
          | succ j =>
            rw [candidates, List.getElem?_cons_succ] at hq
            exact hbefore j q (by omega) hq
        · rw [hrest]
          have h2 : 2 * (k + 1 + 1) = 2 * (k + 1) + 1 + 1 := by omega
          rw [h2, List.drop_succ_cons, List.drop_succ_cons]
      · rename_i hoff
        simp only [Option.some.injEq, Prod.mk.injEq] at h
        refine ⟨0, ?_, ?_, ?_, ?_⟩
        · rw [candidates, List.getElem?_cons_zero, ← h.1]
        · rw [← h.1]
          simpa using hoff
        · intro j q hj
          omega
        · rw [← h.2]
          rfl

/-- Claim C11 fails without a window: in `demo_null` the draws `1, 1` hold the
candidate `(1, 1)`, which is off the snake, yet `place_random_food` returns the
state as it was, with the food still at `(5, 6)` and no draw used. -/
theorem place_random_food_null_window :
    demo_null.game_win = 0 ∧ (0 ≤ demo_null.snake.length ∧ demo_null.snake.length ≤ 1800) ∧
    candidates [1, 1] = [⟨1, 1⟩] ∧
    placed_on_snake demo_null.snake.body ⟨1, 1⟩ demo_null.snake.length.toNat 0 = false ∧
    ∃ s' rest, place_random_food demo_null [1, 1] = some (s', rest) ∧
      s'.food.pos = ⟨5, 6⟩ ∧ s'.food.pos ≠ ⟨1, 1⟩ ∧ rest = [1, 1] :=
  ⟨by decide, ⟨by decide, by decide⟩, by decide, by decide, _, _, rfl,
    by decide, by decide, rfl⟩

/-- Claim C11, amended: for every state with a window and
`0 <= snake.length <= 1800`, and every list of draws in which some candidate
(row = draw mod 30, column = next draw mod 60) coincides with no segment
`body[0 .. length-1]`, `place_random_food` returns at the first such candidate:
`food.pos` is the candidate at some position `k`, every earlier candidate lies
on a segment, the draws of the first `k + 1` candidates are used up, `food.pos`
is on the board and differs from every segment, `food.active` is true, and the
snake, the score and both flags are unchanged. -/
theorem place_random_food_first_free (s : GameState) (draws : List Nat)
    (hwin : s.game_win ≠ 0) (h0 : 0 ≤ s.snake.length) (h1 : s.snake.length ≤ 1800)
    (hfree : ∃ p ∈ candidates draws,
      ∀ i : Nat, (i : Int) < s.snake.length → p ≠ s.snake.body i) :
    ∃ s' rest, place_random_food s draws = some (s', rest) ∧
      (∃ k : Nat, (candidates draws)[k]? = some s'.food.pos ∧
        (∀ j q, j < k → (candidates draws)[j]? = some q →
          ∃ i : Nat, (i : Int) < s.snake.length ∧ q = s.snake.body i) ∧
        rest = draws.drop (2 * (k + 1))) ∧
      in_grid s'.food.pos ∧
      (∀ i : Nat, (i : Int) < s.snake.length → s'.food.pos ≠ s.snake.body i) ∧
      s'.food.active = true ∧
      s'.snake = s.snake ∧ s'.score = s.score ∧
      s'.game_over = s.game_over ∧ s'.quit_game = s.quit_game := by
  have hret : placement_returns s draws := by
    right
    obtain ⟨p, hp, hoff⟩ := hfree
    refine ⟨p, hp, ?_⟩
    rw [Bool.eq_false_iff]
    intro hon
    rw [placed_on_snake_iff] at hon
    obtain ⟨j, _, hj, hy, hx⟩ := hon
    apply hoff j (by omega)
    cases p with
    | mk py px =>
      cases hb : s.snake.body j with
      | mk qy qx =>
        rw [hb] at hy hx
        simp only at hy hx
        rw [hy, hx]
  have hsome := (place_random_food_isSome s draws).2 hret
  cases hpl : place_random_food s draws with
  | none => rw [hpl] at hsome; cases hsome
  | some r =>
    obtain ⟨s', rest⟩ := r
    refine ⟨s', rest, rfl, ?_⟩
    have hfr := place_random_food_frame s draws s' rest hpl
    unfold place_random_food at hpl
    rw [if_neg hwin] at hpl
    cases hl : place_loop s draws with
    | none => simp [hl] at hpl
    | some r1 =>
      obtain ⟨s1, rest1⟩ := r1
      simp only [hl, Option.map_some', Option.some.injEq, Prod.mk.injEq] at hpl
      obtain ⟨k, hk, hoff, hbefore, hrest⟩ :=
        place_loop_first draws.length s draws (le_refl _) s1 rest1 hl
      have hpos : s'.food.pos = s1.food.pos := by rw [← hpl.1]
      have hact : s'.food.active = true := by rw [← hpl.1]
      have hne : ∀ i : Nat, (i : Int) < s.snake.length → s'.food.pos ≠ s.snake.body i := by
        intro i hi heq
        have hon : placed_on_snake s.snake.body s1.food.pos s.snake.length.toNat 0 = true := by
          rw [placed_on_snake_iff]
          refine ⟨i, Nat.zero_le _, by omega, ?_, ?_⟩
          · rw [← hpos, heq]
          · rw [← hpos, heq]
        rw [hoff] at hon
        cases hon
      refine ⟨⟨k, ?_, ?_, ?_⟩, ?_, hne, hact, ?_, ?_, ?_, ?_⟩
      · rw [hpos]; exact hk
      · intro j q hj hq
        have hon := hbefore j q hj hq
        rw [placed_on_snake_iff] at hon
        obtain ⟨i, _, hi, hy, hx⟩ := hon
        refine ⟨i, by omega, ?_⟩
        cases q with
        | mk qy qx =>
          cases hb : s.snake.body i with
          | mk cy cx =>
            rw [hb] at hy hx
            simp only at hy hx
            rw [hy, hx]
      · rw [← hpl.2]; exact hrest
      · rw [hpos]
        exact candidates_in_grid draws.length draws (le_refl _) _
          (List.getElem?_mem hk)
      · rw [hfr]
      · rw [hfr]
      · rw [hfr]
      · rw [hfr]

/-- The cell `(7, 9)` is off all three segments of `demo_three`. -/
theorem demo_three_off :
    ∀ i : Nat, (i : Int) < demo_three.snake.length →
      (⟨7, 9⟩ : Point) ≠ demo_three.snake.body i := by
  intro i hi
  change (i : Int) < 3 at hi
  have h : i = 0 ∨ i = 1 ∨ i = 2 := by omega
  rcases h with rfl | rfl | rfl <;> decide

theorem place_random_food_first_free_witness :
    (demo_three.game_win ≠ 0 ∧ 0 ≤ demo_three.snake.length ∧
      demo_three.snake.length ≤ 1800 ∧
      candidates [5, 4, 65, 63, 7, 9, 2, 2] = [⟨5, 4⟩, ⟨5, 3⟩, ⟨7, 9⟩, ⟨2, 2⟩]) ∧
    (∃ s' rest, place_random_food demo_three [5, 4, 65, 63, 7, 9, 2, 2] = some (s', rest) ∧
      s'.food.pos = ⟨7, 9⟩ ∧ rest = [2, 2]) ∧
    ∃ s' rest, place_random_food demo_three [5, 4, 65, 63, 7, 9, 2, 2] = some (s', rest) ∧
      (∃ k : Nat, (candidates [5, 4, 65, 63, 7, 9, 2, 2])[k]? = some s'.food.pos ∧
        (∀ j q, j < k → (candidates [5, 4, 65, 63, 7, 9, 2, 2])[j]? = some q →
          ∃ i : Nat, (i : Int) < demo_three.snake.length ∧ q = demo_three.snake.body i) ∧
        rest = [5, 4, 65, 63, 7, 9, 2, 2].drop (2 * (k + 1))) ∧
      in_grid s'.food.pos ∧
      (∀ i : Nat, (i : Int) < demo_three.snake.length →
        s'.food.pos ≠ demo_three.snake.body i) ∧
      s'.food.active = true ∧
      s'.snake = demo_three.snake ∧ s'.score = demo_three.score ∧
      s'.game_over = demo_three.game_over ∧ s'.quit_game = demo_three.quit_game :=
  ⟨⟨by decide, by decide, by decide, by decide⟩, ⟨_, _, rfl, by decide, rfl⟩,
    place_random_food_first_free demo_three [5, 4, 65, 63, 7, 9, 2, 2]
      (by decide) (by decide) (by decide) ⟨⟨7, 9⟩, by decide, demo_three_off⟩⟩

/-- Claim C12: `init_game_state` sets the session up the same way from every
starting memory: length 3, body head first at row 15 (= 30 / 2) and columns 15
(= 60 / 4), 14, 13, both direction fields right, score 0, `game_over` and
`quit_game` false, food inactive with symbol `'*'`. -/
theorem init_game_state_spec (s0 : GameState) :
    (init_game_state s0).snake.length = 3 ∧
    (init_game_state s0).snake.body 0 = ⟨15, 15⟩ ∧
    (init_game_state s0).snake.body 1 = ⟨15, 14⟩ ∧
    (init_game_state s0).snake.body 2 = ⟨15, 13⟩ ∧
    (init_game_state s0).snake.current_dir = DIR_RIGHT ∧
    (init_game_state s0).snake.last_input_dir = DIR_RIGHT ∧
    (init_game_state s0).score = 0 ∧
    (init_game_state s0).game_over = false ∧
    (init_game_state s0).quit_game = false ∧
    (init_game_state s0).food.active = false ∧
    (init_game_state s0).food.symbol = '*' ∧
    GAME_AREA_HEIGHT / 2 = 15 ∧ GAME_AREA_WIDTH / 4 = 15 :=
  ⟨rfl, rfl, rfl, rfl, rfl, rfl, rfl, rfl, rfl, rfl, rfl, by decide, by decide⟩

/-- Claim C13 fails without a window: in `demo_null` the key `q` leaves
`quit_game` false. -/
theorem process_input_quit_null_window :
    demo_null.game_win = 0 ∧ demo_null.quit_game = false ∧
    (process_input demo_null 113).quit_game = false ∧
    ¬ (∀ s : GameState, (process_input s 113).quit_game = true) :=
  ⟨by decide, by decide, by decide, fun h => absurd (h demo_null) (by decide)⟩

/-- Claim C13, amended: for every state, `process_input` with a key code that is
neither a direction key nor `q` / `Q` (the code `ERR` among them) leaves the
whole state unchanged; with `q` or `Q` it sets `quit_game` to true and changes
nothing else when there is a window, and changes nothing at all when there is
none; with a direction key it changes at most `current_dir`. -/
theorem process_input_frame (s : GameState) (ch : Int) :
    (requested_dir ch = none → ch ≠ 113 → ch ≠ 81 → process_input s ch = s) ∧
    process_input s ERR = s ∧
    ((ch = 113 ∨ ch = 81) → s.game_win ≠ 0 →
      process_input s ch = { s with quit_game := true }) ∧
    ((ch = 113 ∨ ch = 81) → s.game_win = 0 → process_input s ch = s) ∧
    (∀ D, requested_dir ch = some D →
      process_input s ch =
        { s with
          snake := { s.snake with current_dir := (process_input s ch).snake.current_dir } }) := by
  have hnull : s.game_win = 0 → process_input s ch = s := by
    intro hwin
    unfold process_input
    rw [if_pos hwin]
  refine ⟨?_, ?_, ?_, ?_, ?_⟩
  · intro hnone hq hQ
    by_cases hwin : s.game_win = 0
    · exact hnull hwin
    · unfold requested_dir at hnone
      unfold process_input
      split_ifs at hnone with h1 h2 h3 h4
      rw [if_neg hwin, if_neg h1, if_neg h2, if_neg h3, if_neg h4,
        if_neg (not_or.mpr ⟨hq, hQ⟩)]
  · unfold process_input ERR KEY_LEFT KEY_DOWN KEY_UP KEY_RIGHT
    simp
  · intro hq hwin
    unfold process_input KEY_LEFT KEY_DOWN KEY_UP KEY_RIGHT
    rw [if_neg hwin, if_neg (by omega), if_neg (by omega), if_neg (by omega),
      if_neg (by omega), if_pos hq]
  · intro _ hwin
    exact hnull hwin
  · intro D hD
    by_cases hwin : s.game_win = 0
    · rw [hnull hwin]
    · rw [process_input_key s ch D hwin hD]
      split_ifs <;> rfl

theorem process_input_frame_witness :
    (demo_three.game_win ≠ 0 ∧ requested_dir 112 = none ∧ requested_dir 107 = some DIR_UP) ∧
    process_input demo_three 112 = demo_three ∧
    process_input demo_three 81 = { demo_three with quit_game := true } ∧
    process_input demo_three 107 =
      { demo_three with
        snake :=
          { demo_three.snake with
            current_dir := (process_input demo_three 107).snake.current_dir } } :=
  ⟨⟨by decide, by decide, by decide⟩,
    (process_input_frame demo_three 112).1 (by decide) (by decide) (by decide),
    (process_input_frame demo_three 81).2.2.1 (by decide) (by decide),
    (process_input_frame demo_three 107).2.2.2.2 DIR_UP (by decide)⟩

/-- The function `move_snake` never touches `game_over` or `quit_game`. -/
theorem move_snake_flags (s : GameState) (draws : List Nat) (s' : GameState)
    (rest : List Nat) (h : move_snake s draws = some (s', rest)) :
    s'.game_over = s.game_over ∧ s'.quit_game = s.quit_game := by
  by_cases hlen : 0 < s.snake.length
  · by_cases hdir : s.snake.current_dir = DIR_NONE
    · unfold move_snake at h
      rw [if_pos ⟨hdir, hlen⟩] at h
      simp only [Option.some.injEq, Prod.mk.injEq] at h
      rw [← h.1]
      exact ⟨rfl, rfl⟩
    · obtain ⟨p, _, hc⟩ := move_snake_cases s draws s' rest hlen hdir h
      rcases hc with ⟨_, hs, _⟩ | ⟨_, f, hs⟩ <;> subst hs <;> exact ⟨rfl, rfl⟩
  · unfold move_snake at h
    rw [if_neg (by tauto), if_pos (by omega)] at h
    simp only [Option.some.injEq, Prod.mk.injEq] at h
    rw [← h.1]
    exact ⟨rfl, rfl⟩

/-- Claim C14: for every state with `game_over` and `quit_game` both false,
`update_game_logic` returns exactly when `move_snake` does and yields the state
of `move_snake` with `game_over` equal to the value of `check_self_collision` on
that moved state, so `game_over` is true if and only if the check holds; and on
every state `update_game_logic` leaves `quit_game` as it was. -/
theorem update_game_logic_running (s : GameState) (draws : List Nat) :
    (s.game_over = false → s.quit_game = false →
      update_game_logic s draws =
        (move_snake s draws).map
          (fun r => ({ r.1 with game_over := check_self_collision r.1 }, r.2)) ∧
      ∀ s' rest, update_game_logic s draws = some (s', rest) →
        ∃ m, move_snake s draws = some (m, rest) ∧
          (s'.game_over = true ↔ check_self_collision m = true) ∧
          s' = { m with game_over := s'.game_over }) ∧
    (∀ s' rest, update_game_logic s draws = some (s', rest) →
      s'.quit_game = s.quit_game) := by
  have heq : s.game_over = false → s.quit_game = false →
      update_game_logic s draws =
        (move_snake s draws).map
          (fun r => ({ r.1 with game_over := check_self_collision r.1 }, r.2)) := by
    intro hgo hq
    unfold update_game_logic
    rw [if_neg (by rw [hgo, hq]; simp)]
    cases hm : move_snake s draws with
    | none => rfl
    | some r =>
      obtain ⟨m, rest⟩ := r
      have hf := (move_snake_flags s draws m rest hm).1
      rw [hgo] at hf
      simp only [Option.map_some', Option.some.injEq, Prod.mk.injEq, and_true]
      cases hc : check_self_collision m
      · simp only [Bool.false_eq_true, if_false]
        conv_lhs => rw [show m = { m with game_over := m.game_over } from rfl, hf]
      · simp only [if_true]
  refine ⟨fun hgo hq => ⟨heq hgo hq, ?_⟩, ?_⟩
  · intro s' rest hu
    rw [heq hgo hq] at hu
    cases hm : move_snake s draws with
    | none => simp [hm] at hu
    | some r =>
      obtain ⟨m, rest1⟩ := r
      simp only [hm, Option.map_some', Option.some.injEq, Prod.mk.injEq] at hu
      obtain ⟨hs, hr⟩ := hu
      subst hs
      subst hr
      exact ⟨m, rfl, Iff.rfl, rfl⟩
  · intro s' rest hu
    unfold update_game_logic at hu
    split_ifs at hu with hend
    · simp only [Option.some.injEq, Prod.mk.injEq] at hu
      rw [← hu.1]
    · cases hm : move_snake s draws with
      | none => simp [hm] at hu
      | some r =>
        obtain ⟨m, rest1⟩ := r
        simp only [hm, Option.map_some', Option.some.injEq, Prod.mk.injEq] at hu
        have hf := (move_snake_flags s draws m rest1 hm).2
        rw [← hu.1, ← hf]
        split_ifs <;> rfl

theorem update_game_logic_running_witness :
    (demo_three.game_over = false ∧ demo_three.quit_game = false) ∧
    (∃ m rest, move_snake demo_three [1, 1] = some (m, rest) ∧
      check_self_collision m = false) ∧
    update_game_logic demo_three [1, 1] =
      (move_snake demo_three [1, 1]).map
        (fun r => ({ r.1 with game_over := check_self_collision r.1 }, r.2)) ∧
    (∃ s' rest, update_game_logic demo_coil [] = some (s', rest) ∧
      s'.game_over = true ∧ s'.quit_game = demo_coil.quit_game) :=
  ⟨⟨by decide, by decide⟩, ⟨_, _, rfl, by decide⟩,
    ((update_game_logic_running demo_three [1, 1]).1 (by decide) (by decide)).1,
    ⟨_, _, rfl, by decide, (update_game_logic_running demo_coil []).2 _ _ rfl⟩⟩

/-- The row-by-row body `full_body` reaches every cell of the board within its
first 1800 slots. -/
theorem full_body_covers (p : Point) (hp : in_grid p) :
    ∃ i : Nat, (i : Int) < 1800 ∧ full_body i = p := by
  unfold in_grid GAME_AREA_WIDTH GAME_AREA_HEIGHT at hp
  obtain ⟨hx0, hx1, hy0, hy1⟩ := hp
  refine ⟨p.y.toNat * 60 + p.x.toNat, by omega, ?_⟩
  cases p with
  | mk py px =>
    simp only at hx0 hx1 hy0 hy1
    unfold full_body
    simp only [Point.mk.injEq]
    constructor <;> omega

/-- Claim C15 fails without a window: `demo_full_null` has length 1800 and lies
on every cell of the board, and `place_random_food` returns at once, on any
draws, without having drawn. -/
theorem place_random_food_full_null_window :
    demo_full_null.game_win = 0 ∧ demo_full_null.snake.length = 1800 ∧
    covers_grid demo_full_null ∧
    ∀ draws, place_random_food demo_full_null draws = some (demo_full_null, draws) :=
  ⟨by decide, by decide, fun p hp => full_body_covers p hp, fun _ => rfl⟩

/-- Claim C15, amended: if there is a window and the segments
`body[0 .. length-1]` of a snake of length 1800 cover every cell of the 60 x 30
board, then `place_random_food` never returns: on every finite list of draws
every candidate is rejected and the draws run out.  The loop has no other way
out. -/
theorem place_random_food_full (s : GameState) (draws : List Nat)
    (hwin : s.game_win ≠ 0) (hlen : s.snake.length = 1800) (hcov : covers_grid s) :
    place_random_food s draws = none ∧
    ∀ p ∈ candidates draws,
      placed_on_snake s.snake.body p s.snake.length.toNat 0 = true := by
  have hall : ∀ p ∈ candidates draws,
      placed_on_snake s.snake.body p s.snake.length.toNat 0 = true := by
    intro p hp
    have hg := candidates_in_grid draws.length draws (le_refl _) p hp
    obtain ⟨i, hi, hb⟩ := hcov p hg
    rw [placed_on_snake_iff]
    exact ⟨i, Nat.zero_le _, by omega, by rw [hb], by rw [hb]⟩
  refine ⟨?_, hall⟩
  have hno : ¬ placement_returns s draws := by
    rintro (h0 | ⟨p, hp, hoff⟩)
    · exact hwin h0
    · rw [hall p hp] at hoff
      cases hoff
  rw [← place_random_food_isSome] at hno
  cases hpl : place_random_food s draws with
  | none => rfl
  | some r => rw [hpl] at hno; exact absurd rfl hno

theorem place_random_food_full_witness :
    (demo_full.game_win ≠ 0 ∧ demo_full.snake.length = 1800 ∧ covers_grid demo_full) ∧
    place_random_food demo_full [3, 4, 29, 59, 0, 0] = none :=
  ⟨⟨by decide, by decide, fun p hp => full_body_covers p hp⟩,
    (place_random_food_full demo_full [3, 4, 29, 59, 0, 0] (by decide) (by decide)
      (fun p hp => full_body_covers p hp)).1⟩

/-! ## Invariants of a whole game -/

/-- From a cell on the board, a wrapped unit step is the step modulo the board. -/
theorem step_wrap_eq (a b : Point) (d : Direction) (ha : in_grid a)
    (h : (step_head a d).map wrap_head = some b) :
    (d = DIR_UP ∧ b = ⟨(a.y - 1) % 30, a.x⟩) ∨ (d = DIR_DOWN ∧ b = ⟨(a.y + 1) % 30, a.x⟩) ∨
    (d = DIR_LEFT ∧ b = ⟨a.y, (a.x - 1) % 60⟩) ∨ (d = DIR_RIGHT ∧ b = ⟨a.y, (a.x + 1) % 60⟩) := by
  unfold in_grid GAME_AREA_WIDTH GAME_AREA_HEIGHT at ha
  cases d
  case DIR_NONE => simp [step_head] at h
  all_goals
    simp only [step_head, Option.map_some', Option.some.injEq] at h
    subst h
    simp only [wrap_head, GAME_AREA_WIDTH, GAME_AREA_HEIGHT, Point.mk.injEq, true_and,
      false_and, false_or, or_false, reduceCtorEq]
    constructor <;> split_ifs <;> omega

/-- Two wrapped unit steps, the second not reversing the first, end on a cell
that is neither the starting cell nor the cell in between. -/
theorem two_steps_apart (a b c : Point) (d1 d2 : Direction) (ha : in_grid a)
    (hb : in_grid b) (h2 : (step_head a d2).map wrap_head = some b)
    (h1 : (step_head b d1).map wrap_head = some c) (hd : d1 ≠ opposite d2) :
    c ≠ b ∧ c ≠ a := by
  have e2 := step_wrap_eq a b d2 ha h2
  have e1 := step_wrap_eq b c d1 hb h1
  unfold in_grid GAME_AREA_WIDTH GAME_AREA_HEIGHT at ha hb
  obtain ⟨ay, ax⟩ := a
  obtain ⟨by1, bx⟩ := b
  obtain ⟨cy, cx⟩ := c
  dsimp only at ha hb e1 e2
  simp only [Point.mk.injEq] at e1 e2
  simp only [ne_eq, Point.mk.injEq]
  rcases e2 with ⟨rfl, e2y, e2x⟩ | ⟨rfl, e2y, e2x⟩ | ⟨rfl, e2y, e2x⟩ | ⟨rfl, e2y, e2x⟩ <;>
    rcases e1 with ⟨rfl, e1y, e1x⟩ | ⟨rfl, e1y, e1x⟩ | ⟨rfl, e1y, e1x⟩ | ⟨rfl, e1y, e1x⟩ <;>
    first
      | exact absurd rfl hd
      | (constructor <;> omega)

/-- In a snake of length 3 with the shape `neck_inv`, the head lies on neither of
the other two segments. -/
theorem neck_head_free (s : GameState) (hn : neck_inv s) (h3 : s.snake.length = 3) :
    s.snake.body 0 ≠ s.snake.body 1 ∧ s.snake.body 0 ≠ s.snake.body 2 := by
  obtain ⟨_, hg1, hg2, hstep1, d2, hd, hstep2⟩ := hn h3
  exact two_steps_apart _ _ _ _ d2 hg2 hg1 hstep2 hstep1 hd

/-- A passed collision check on a snake of length at least 4 means the head lies
on no other segment. -/
theorem no_collision_head (m : GameState) (h4 : 4 ≤ m.snake.length)
    (hc : check_self_collision m = false) :
    ∀ j : Nat, 1 ≤ j → (j : Int) < m.snake.length → m.snake.body 0 ≠ m.snake.body j := by
  intro j h1 hj heq
  unfold check_self_collision at hc
  rw [if_neg (by omega)] at hc
  have ht : collision_scan m.snake.body (m.snake.body 0) (m.snake.length - 1).toNat 1 = true := by
    rw [collision_scan_iff]
    exact ⟨j, h1, by omega, by rw [← heq], by rw [← heq]⟩
  simp only at hc
  rw [hc] at ht
  cases ht

/-- After `advance`, the segments are pairwise distinct as soon as the old ones
were and the new head lies on none of the cells behind it. -/
theorem pairwise_advance (t s : GameState) (p : Point)
    (hbody : t.snake.body = s.snake.body) (hlen : t.snake.length ≤ s.snake.length + 1)
    (hpd : pairwise_distinct s)
    (hhead : ∀ j : Nat, 1 ≤ j → (j : Int) < (advance t p).snake.length →
      (advance t p).snake.body 0 ≠ (advance t p).snake.body j) :
    pairwise_distinct (advance t p) := by
  intro i j hij hj
  by_cases h0 : i = 0
  · subst h0
    exact hhead j (by omega) hj
  · rw [advance_length] at hj
    rw [advance_body t p i (by omega), advance_body t p j hj, if_neg h0, if_neg (by omega),
      hbody]
    exact hpd (i - 1) (j - 1) (by omega) (by omega)

/-- The shape `neck_inv` survives a move that does not grow the snake. -/
theorem neck_advance (s : GameState) (p : Point) (hdi : dir_inv s) (hn : neck_inv s)
    (h3 : s.snake.length = 3) (hp : new_head s = some p) : neck_inv (advance s p) := by
  intro _
  obtain ⟨hg0, hg1, _, hstep1, _⟩ := hn h3
  have hb0 : (advance s p).snake.body 0 = p := by
    rw [advance_body s p 0 (by omega), if_pos rfl]
  have hb1 : (advance s p).snake.body 1 = s.snake.body 0 := by
    rw [advance_body s p 1 (by omega), if_neg (by omega)]
  have hb2 : (advance s p).snake.body 2 = s.snake.body 1 := by
    rw [advance_body s p 2 (by omega), if_neg (by omega)]
  rw [hb0, hb1, hb2]
  refine ⟨new_head_in_grid s p hg0 hp, hg0, hg1, hp, s.snake.last_input_dir, hdi.2.1, hstep1⟩

/-- What a returning `move_snake` preserves from a state of a running game. -/
theorem play_inv_move (s : GameState) (draws : List Nat) (m : GameState) (rest : List Nat)
    (h : play_inv s) (hgo : s.game_over = false) (hm : move_snake s draws = some (m, rest)) :
    dir_inv m ∧ 3 ≤ m.snake.length ∧ neck_inv m ∧
      (check_self_collision m = false → pairwise_distinct m) ∧
      0 ≤ m.score ∧ m.snake.length = min (3 + m.score) 1800 ∧ m.game_over = false := by
  obtain ⟨hdi, hlen3, hneck, hpd, hsc0, hsc⟩ := h
  have hdm := (dir_inv_move_snake s draws m rest hdi hm).1
  have hbounds := move_snake_length s draws m rest hdi.2.2.2 hm
  have hflag := (move_snake_flags s draws m rest hm).1
  obtain ⟨p, hp, hc⟩ := move_snake_cases s draws m rest (by omega) hdi.1 hm
  have hfinish : ∀ (t : GameState), m = advance t p → t.snake.body = s.snake.body →
      t.snake.length ≤ s.snake.length + 1 → neck_inv m →
      (check_self_collision m = false → pairwise_distinct m) := by
    intro t hmt hbody htl hnm hcheck
    rw [hmt]
    apply pairwise_advance t s p hbody htl (hpd hgo)
    rw [← hmt]
    by_cases h4 : 4 ≤ m.snake.length
    · exact no_collision_head m h4 hcheck
    · have h3 : m.snake.length = 3 := by omega
      intro j h1 hj
      have hfree := neck_head_free m hnm h3
      have hj2 : j = 1 ∨ j = 2 := by omega
      rcases hj2 with rfl | rfl
      · exact hfree.1
      · exact hfree.2
  rcases hc with ⟨_, hs, _⟩ | ⟨_, f, hs⟩
  · have hl : m.snake.length = s.snake.length := by rw [hs]; rfl
    have hscore : m.score = s.score := by rw [hs]; rfl
    have hnm : neck_inv m := by
      intro h3
      have := neck_advance s p hdi hneck (by omega) hp
      rw [← hs] at this
      exact this h3
    refine ⟨hdm, by omega, hnm, hfinish s hs rfl (by omega) hnm, by omega, ?_, ?_⟩
    · rw [hl, hscore]; exact hsc
    · rw [hflag]; exact hgo
  · have hl : m.snake.length =
        if s.snake.length < 1800 then s.snake.length + 1 else s.snake.length := by
      rw [hs]; rfl
    have hscore : m.score = s.score + 1 := by rw [hs]; rfl
    have hnm : neck_inv m := by
      intro h3
      rw [hl] at h3
      split_ifs at h3 <;> omega
    refine ⟨hdm, by omega, hnm, hfinish _ hs rfl ?_ hnm, by omega, ?_, ?_⟩
    · show (grow s).snake.length ≤ s.snake.length + 1
      have := grow_length_bounds s hdi.2.2.2
      unfold grow at *
      simp only at *
      split_ifs <;> omega
    · rw [hl, hscore]
      split_ifs with hlt
      · rw [hsc] at hlt ⊢
        omega
      · rw [hsc] at hlt ⊢
        omega
    · rw [hflag]; exact hgo

/-- The invariant of a game holds after `init_game_state`. -/
theorem play_inv_init (s0 : GameState) : play_inv (init_game_state s0) := by
  have b0 : (init_game_state s0).snake.body 0 = ⟨15, 15⟩ := rfl
  have b1 : (init_game_state s0).snake.body 1 = ⟨15, 14⟩ := rfl
  have b2 : (init_game_state s0).snake.body 2 = ⟨15, 13⟩ := rfl
  have hl : (init_game_state s0).snake.length = 3 := rfl
  have hd : (init_game_state s0).snake.last_input_dir = DIR_RIGHT := rfl
  refine ⟨dir_inv_init s0, by rw [hl], ?_, ?_, ?_, ?_⟩
  · intro _
    rw [b0, b1, b2, hd]
    exact ⟨by decide, by decide, by decide, by decide, DIR_RIGHT, by decide, by decide⟩
  · intro _ i j hij hj
    rw [hl] at hj
    have hcases : (i = 0 ∧ j = 1) ∨ (i = 0 ∧ j = 2) ∨ (i = 1 ∧ j = 2) := by omega
    rcases hcases with ⟨rfl, rfl⟩ | ⟨rfl, rfl⟩ | ⟨rfl, rfl⟩
    · rw [b0, b1]; decide
    · rw [b0, b2]; decide
    · rw [b1, b2]; decide
  · show (0 : Int) ≤ 0
    decide
  · show (3 : Int) = min (3 + 0) 1800
    decide

/-- The function `place_random_food` preserves the invariant of a game. -/
theorem play_inv_place (s : GameState) (draws : List Nat) (s' : GameState)
    (rest : List Nat) (h : play_inv s) (hp : place_random_food s draws = some (s', rest)) :
    play_inv s' := by
  rw [place_random_food_frame s draws s' rest hp]
  exact h

/-- The function `process_input` preserves the invariant of a game. -/
theorem play_inv_process_input (s : GameState) (ch : Int) (h : play_inv s) :
    play_inv (process_input s ch) := by
  have hdi := dir_inv_process_input s ch h.1
  rcases process_input_cases s ch with e | ⟨d, _, _, e⟩ | e
  · rw [e]; exact h
  · rw [e] at hdi ⊢
    exact ⟨hdi, h.2⟩
  · rw [e]; exact h

/-- The function `update_game_logic` preserves the invariant of a game. -/
theorem play_inv_update (s : GameState) (draws : List Nat) (s' : GameState)
    (rest : List Nat) (h : play_inv s) (hu : update_game_logic s draws = some (s', rest)) :
    play_inv s' := by
  unfold update_game_logic at hu
  split_ifs at hu with hend
  · simp only [Option.some.injEq, Prod.mk.injEq] at hu
    rw [← hu.1]
    exact h
  · cases hm : move_snake s draws with
    | none => simp [hm] at hu
    | some r =>
      obtain ⟨m, r1⟩ := r
      simp only [hm, Option.map_some', Option.some.injEq, Prod.mk.injEq] at hu
      have hgo : s.game_over = false := by
        cases hg : s.game_over
        · rfl
        · exact absurd (Or.inl hg) hend
      obtain ⟨hdm, hl3, hnm, hpd, hs0, hsc, hmgo⟩ := play_inv_move s draws m r1 h hgo hm
      rw [← hu.1]
      cases hc : check_self_collision m
      · simp only [Bool.false_eq_true, if_false]
        exact ⟨hdm, hl3, hnm, fun _ => hpd hc, hs0, hsc⟩
      · simp only [if_true]
        refine ⟨hdm, hl3, hnm, fun hfalse => ?_, hs0, hsc⟩
        cases hfalse

/-- One tick preserves the invariant of a game. -/
theorem play_inv_tick (s : GameState) (ch : Int) (draws : List Nat) (s' : GameState)
    (rest : List Nat) (h : play_inv s) (ht : tick s ch draws = some (s', rest)) :
    play_inv s' :=
  play_inv_update _ draws s' rest (play_inv_process_input s ch h) ht

/-- A run of ticks preserves the invariant of a game. -/
theorem play_inv_run_ticks (keys : List Int) : ∀ (s : GameState) (draws : List Nat)
    (s' : GameState) (rest : List Nat), play_inv s →
    run_ticks s draws keys = some (s', rest) → play_inv s' := by
  induction keys with
  | nil =>
    intro s draws s' rest h hr
    simp only [run_ticks, Option.some.injEq, Prod.mk.injEq] at hr
    rw [← hr.1]
    exact h
  | cons ch keys ih =>
    intro s draws s' rest h hr
    rw [run_ticks] at hr
    cases ht : tick s ch draws with
    | none => simp [ht] at hr
    | some r =>
      obtain ⟨s1, r1⟩ := r
      simp only [ht] at hr
      exact ih s1 r1 s' rest (play_inv_tick s ch draws s1 r1 h ht) hr

/-- Every state of every game satisfies the invariant. -/
theorem play_inv_play (s0 : GameState) (draws : List Nat) (keys : List Int)
    (s : GameState) (rest : List Nat) (h : play s0 draws keys = some (s, rest)) :
    play_inv s := by
  unfold play at h
  cases hs : start_game s0 draws with
  | none => simp [hs] at h
  | some r =>
    obtain ⟨s1, r1⟩ := r
    simp only [hs] at h
    exact play_inv_run_ticks keys s1 r1 s rest
      (play_inv_place _ draws s1 r1 (play_inv_init s0) hs) h

/-- Claim C16: in every state of every game (set-up with the first food placed,
then any ticks), a snake of fewer than 4 segments has its head on no other
segment `body[1 .. length-1]`; hence there `check_self_collision` agrees with
the unguarded test "the head equals some segment at an index from 1 on", and
the `length >= 4` guard hides no collision. -/
theorem short_snake_no_loop (s0 : GameState) (draws : List Nat) (keys : List Int)
    (s : GameState) (rest : List Nat) (h : play s0 draws keys = some (s, rest)) :
    (s.snake.length < 4 →
      ∀ i : Nat, 1 ≤ i → (i : Int) < s.snake.length → s.snake.body 0 ≠ s.snake.body i) ∧
    check_self_collision s = unguarded_collision s ∧
    (unguarded_collision s = true ↔
      ∃ i : Nat, 1 ≤ i ∧ (i : Int) < s.snake.length ∧ s.snake.body 0 = s.snake.body i) := by
  obtain ⟨_, hl3, hneck, _, _, _⟩ := play_inv_play s0 draws keys s rest h
  have hshort : s.snake.length < 4 →
      ∀ i : Nat, 1 ≤ i → (i : Int) < s.snake.length → s.snake.body 0 ≠ s.snake.body i := by
    intro hlt i h1 hi
    have h3 : s.snake.length = 3 := by omega
    have hfree := neck_head_free s hneck h3
    have hi2 : i = 1 ∨ i = 2 := by omega
    rcases hi2 with rfl | rfl
    · exact hfree.1
    · exact hfree.2
  have hiff : unguarded_collision s = true ↔
      ∃ i : Nat, 1 ≤ i ∧ (i : Int) < s.snake.length ∧ s.snake.body 0 = s.snake.body i := by
    unfold unguarded_collision
    rw [collision_scan_iff]
    constructor
    · rintro ⟨j, h1, hj, hx, hy⟩
      refine ⟨j, h1, by omega, ?_⟩
      cases hb0 : s.snake.body 0 with
      | mk y0 x0 =>
        cases hbj : s.snake.body j with
        | mk yj xj =>
          rw [hb0, hbj] at hx hy
          simp only at hx hy
          rw [hx, hy]
    · rintro ⟨i, h1, hi, heq⟩
      exact ⟨i, h1, by omega, by rw [← heq], by rw [← heq]⟩
  refine ⟨hshort, ?_, hiff⟩
  by_cases hlt : s.snake.length < 4
  · have hc : check_self_collision s = false := by
      unfold check_self_collision
      rw [if_pos hlt]
    rw [hc]
    cases hu : unguarded_collision s
    · rfl
    · obtain ⟨i, h1, hi, heq⟩ := hiff.1 hu
      exact absurd heq (hshort hlt i h1 hi)
  · unfold check_self_collision unguarded_collision
    rw [if_neg hlt]

theorem short_snake_no_loop_witness :
    ∃ s rest, play blank [15, 20] [107, 104, 106] = some (s, rest) ∧ s.snake.length = 3 ∧
      s.snake.body 0 = ⟨15, 14⟩ ∧ s.snake.body 1 = ⟨14, 14⟩ ∧ s.snake.body 2 = ⟨14, 15⟩ ∧
      (∀ i : Nat, 1 ≤ i → (i : Int) < s.snake.length → s.snake.body 0 ≠ s.snake.body i) ∧
      check_self_collision s = unguarded_collision s :=
  ⟨_, _, rfl, by decide, by decide, by decide, by decide,
    (short_snake_no_loop blank [15, 20] [107, 104, 106] _ _ rfl).1 (by decide),
    (short_snake_no_loop blank [15, 20] [107, 104, 106] _ _ rfl).2.1⟩

/-- Claim C17: in every state of every game (set-up with the first food placed,
then any ticks) in which `game_over` is still false, the segments
`body[0 .. length-1]` are pairwise distinct cells; put the other way round, a
tick from such a state that makes two segments coincide sets `game_over`. -/
theorem segments_distinct (s0 : GameState) (draws : List Nat) (keys : List Int)
    (s : GameState) (rest : List Nat) (h : play s0 draws keys = some (s, rest)) :
    (s.game_over = false → pairwise_distinct s) ∧
    (∀ ch more s' rest', tick s ch more = some (s', rest') →
      ¬ pairwise_distinct s' → s'.game_over = true) := by
  have hinv := play_inv_play s0 draws keys s rest h
  refine ⟨hinv.2.2.2.1, ?_⟩
  intro ch more s' rest' ht hnot
  have hinv' := play_inv_tick s ch more s' rest' hinv ht
  cases hg : s'.game_over
  · exact absurd (hinv'.2.2.2.1 hg) hnot
  · rfl

theorem segments_distinct_witness :
    ∃ s rest, play blank [15, 16, 2, 2] [ERR, 107, 104] = some (s, rest) ∧
      s.snake.length = 4 ∧ s.game_over = false ∧ pairwise_distinct s :=
  ⟨_, _, rfl, by decide, by decide,
    (segments_distinct blank [15, 16, 2, 2] [ERR, 107, 104] _ _ rfl).1 (by decide)⟩

/-- Claim C19: in every state of every game (set-up with the first food placed,
then any ticks), with `score` an unbounded integer, `score >= 0` and
`snake.length = min (3 + score) 1800`: the score counts the growth of the snake
until the length reaches its cap. -/
theorem score_counts_growth (s0 : GameState) (draws : List Nat) (keys : List Int)
    (s : GameState) (rest : List Nat) (h : play s0 draws keys = some (s, rest)) :
    0 ≤ s.score ∧ s.snake.length = min (3 + s.score) 1800 := by
  have hinv := play_inv_play s0 draws keys s rest h
  exact ⟨hinv.2.2.2.2.1, hinv.2.2.2.2.2⟩

theorem score_counts_growth_witness :
    ∃ s rest, play blank [15, 16, 15, 18, 4, 4] [ERR, ERR, ERR] = some (s, rest) ∧
      s.score = 2 ∧ s.snake.length = 5 ∧
      0 ≤ s.score ∧ s.snake.length = min (3 + s.score) 1800 :=
  ⟨_, _, rfl, by decide, by decide,
    score_counts_growth blank [15, 16, 15, 18, 4, 4] [ERR, ERR, ERR] _ _ rfl⟩

/-- With a window, the cell that `place_random_food` returns lies on none of the
scanned cells, and the food is active. -/
theorem place_random_food_off (s : GameState) (draws : List Nat) (s' : GameState)
    (rest : List Nat) (hwin : s.game_win ≠ 0)
    (h : place_random_food s draws = some (s', rest)) :
    placed_on_snake s.snake.body s'.food.pos s.snake.length.toNat 0 = false ∧
      s'.food.active = true := by
  unfold place_random_food at h
  rw [if_neg hwin] at h
  cases hl : place_loop s draws with
  | none => simp [hl] at h
  | some r1 =>
    obtain ⟨s1, rest1⟩ := r1
    simp only [hl, Option.map_some', Option.some.injEq, Prod.mk.injEq] at h
    obtain ⟨k, _, hoff, _, _⟩ := place_loop_first draws.length s draws (le_refl _) s1 rest1 hl
    rw [← h.1]
    exact ⟨hoff, rfl⟩

/-- A move that eats is the placement on the grown state followed by `advance`. -/
theorem move_snake_eat (s : GameState) (draws : List Nat) (p : Point)
    (hlen : 0 < s.snake.length) (hp : new_head s = some p) (he : will_eat s) :
    move_snake s draws =
      (place_random_food (grow s) draws).map fun r => (advance r.1 p, r.2) := by
  have hdir : s.snake.current_dir ≠ DIR_NONE := by
    intro hd
    unfold new_head at hp
    rw [hd] at hp
    simp [step_head] at hp
  unfold move_snake
  rw [if_neg (by tauto), if_neg (by omega), hp]
  simp only
  rw [if_pos ((will_eat_iff s p hp).1 he)]

/-- Claim C18 fails without a window: in `demo_bite_null` the move eats the food
at `(5, 6)`, the placement returns without placing, and after the move the food
lies on `body[2]`, which is the old `body[1]`. -/
theorem replacement_null_window :
    demo_bite_null.game_win = 0 ∧
    (1 ≤ demo_bite_null.snake.length ∧ demo_bite_null.snake.length < 1800) ∧
    will_eat demo_bite_null ∧
    ∃ s' rest, move_snake demo_bite_null [9, 9] = some (s', rest) ∧
      s'.snake.body 2 = demo_bite_null.snake.body 1 ∧ s'.food.active = true ∧
      s'.food.pos = s'.snake.body 2 :=
  ⟨by decide, ⟨by decide, by decide⟩, by decide, _, _, rfl, by decide, by decide, by decide⟩

/-- Claim C18, amended: for every state with a window and `1 <= length < 1800` in
which `move_snake` eats the food, and for all draws on which it returns, the new
length is the old length plus one, the post-move segments at the indices
`1 .. old length` are exactly the pre-move segments `body[0 .. old length-1]`,
and the new, active food differs from each of them, because the placement is
compared with the body before the shift.  The new head is not excluded: when
the first candidate drawn is the new head cell and the pre-shift cells
`body[0 .. old length]` do not hold it, the food is placed under the head. -/
theorem replacement_off_old_body (s : GameState) (draws : List Nat)
    (hwin : s.game_win ≠ 0) (hlo : 1 ≤ s.snake.length) (hhi : s.snake.length < 1800)
    (he : will_eat s) :
    (∀ s' rest, move_snake s draws = some (s', rest) →
      s'.snake.length = s.snake.length + 1 ∧ s'.food.active = true ∧
      ∀ i : Nat, 1 ≤ i → (i : Int) ≤ s.snake.length →
        s'.snake.body i = s.snake.body (i - 1) ∧ s'.food.pos ≠ s'.snake.body i) ∧
    (∀ ry rx more p, new_head s = some p →
      p = ⟨((ry : Nat) : Int) % GAME_AREA_HEIGHT, ((rx : Nat) : Int) % GAME_AREA_WIDTH⟩ →
      placed_on_snake s.snake.body p (s.snake.length + 1).toNat 0 = false →
      ∃ s', move_snake s (ry :: rx :: more) = some (s', more) ∧
        s'.food.active = true ∧ s'.food.pos = s'.snake.body 0) := by
  have hg : (grow s).snake.length = s.snake.length + 1 := by
    unfold grow
    simp only
    rw [if_pos]
    unfold MAX_SNAKE_LENGTH GAME_AREA_WIDTH GAME_AREA_HEIGHT
    omega
  obtain ⟨p, hp⟩ : ∃ p, new_head s = some p := ⟨s.food.pos, he.2⟩
  constructor
  · intro s' rest hm
    rw [move_snake_eat s draws p (by omega) hp he] at hm
    cases hpl : place_random_food (grow s) draws with
    | none => simp [hpl] at hm
    | some r =>
      obtain ⟨s1, r1⟩ := r
      simp only [hpl, Option.map_some', Option.some.injEq, Prod.mk.injEq] at hm
      obtain ⟨hoff, hact⟩ := place_random_food_off (grow s) draws s1 r1 hwin hpl
      have hfr := place_random_food_frame (grow s) draws s1 r1 hpl
      have hsnake : s1.snake = (grow s).snake := by rw [hfr]
      have hl1 : s1.snake.length = s.snake.length + 1 := by rw [hsnake, hg]
      have hb1 : s1.snake.body = s.snake.body := by rw [hsnake]; rfl
      rw [← hm.1]
      refine ⟨hl1, hact, ?_⟩
      intro i h1 hi
      have hbi : (advance s1 p).snake.body i = s.snake.body (i - 1) := by
        rw [advance_body s1 p i (by omega), if_neg (by omega), hb1]
      refine ⟨hbi, ?_⟩
      rw [hbi]
      show s1.food.pos ≠ s.snake.body (i - 1)
      intro heq
      have hon : placed_on_snake (grow s).snake.body s1.food.pos
          (grow s).snake.length.toNat 0 = true := by
        rw [placed_on_snake_iff]
        refine ⟨i - 1, Nat.zero_le _, by omega, ?_, ?_⟩
        · show s1.food.pos.y = (s.snake.body (i - 1)).y
          rw [heq]
        · show s1.food.pos.x = (s.snake.body (i - 1)).x
          rw [heq]
      rw [hoff] at hon
      cases hon
  · intro ry rx more q hq hcand hoff
    rw [hp, Option.some.injEq] at hq
    subst hq
    rw [move_snake_eat s (ry :: rx :: more) p (by omega) hp he]
    have hpl : place_random_food (grow s) (ry :: rx :: more) =
        some ({ grow s with food := { (grow s).food with pos := p, active := true } },
          more) := by
      have hwin' : (grow s).game_win ≠ 0 := hwin
      unfold place_random_food
      rw [if_neg hwin', place_loop]
      simp only
      rw [← hcand]
      have hoff' : placed_on_snake (grow s).snake.body p (grow s).snake.length.toNat 0
          = false := by
        rw [hg]
        exact hoff
      rw [if_neg (by rw [hoff']; simp)]
      rfl
    rw [hpl]
    refine ⟨_, rfl, rfl, ?_⟩
    simp [advance]

/-- Every cell of `demo_three`, and the stale cell behind it, is off `(5, 6)`. -/
theorem demo_three_head_free :
    placed_on_snake demo_three.snake.body ⟨5, 6⟩ (demo_three.snake.length + 1).toNat 0
      = false := by
  decide

theorem replacement_off_old_body_witness :
    (demo_three.game_win ≠ 0 ∧ 1 ≤ demo_three.snake.length ∧
      demo_three.snake.length < 1800 ∧ will_eat demo_three) ∧
    (∃ s' rest, move_snake demo_three [5, 5, 8, 8] = some (s', rest) ∧
      s'.food.pos = ⟨8, 8⟩ ∧
      s'.snake.length = demo_three.snake.length + 1 ∧ s'.food.active = true ∧
      ∀ i : Nat, 1 ≤ i → (i : Int) ≤ demo_three.snake.length →
        s'.snake.body i = demo_three.snake.body (i - 1) ∧
        s'.food.pos ≠ s'.snake.body i) ∧
    (∃ s', move_snake demo_three [5, 6, 8, 8] = some (s', [8, 8]) ∧
      s'.food.active = true ∧ s'.food.pos = s'.snake.body 0) :=
  ⟨⟨by decide, by decide, by decide, by decide⟩,
    ⟨_, _, rfl, by decide,
      (replacement_off_old_body demo_three [5, 5, 8, 8] (by decide) (by decide) (by decide)
        (by decide)).1 _ _ rfl⟩,
    (replacement_off_old_body demo_three [5, 6, 8, 8] (by decide) (by decide) (by decide)
      (by decide)).2 5 6 [8, 8] ⟨5, 6⟩ (by decide) (by decide) demo_three_head_free⟩

end Vicnake
